import Mathlib

/-!
Verification development for the foodgo_django backend
(`server/accounts/models.py`, `serializers.py`, `views.py`).

The relational store is shallowly embedded as lists of rows; each Django
model maps to a structure below.  Django `DecimalField` values (prices,
totals, ratings) are exact fixed-point numbers and are embedded as `Int`
(an integer count of the smallest decimal unit).  Coordinates (Python
floats) are embedded as `Rat`.  The floating-point Haversine tests in
`serializers._haversine_m` and `HomeFeedView._distance_km` use
transcendental functions, so they are kept as explicit function
parameters (`near`, `dist`) of the operations that call them; everything
else is translated directly from the source.  `timezone.now` and
`auto_now` timestamps are a logical `Nat` clock.  Primary keys are `Nat`
and are handed out from a single `nextId` counter.  A Django queryset
with no explicit `order_by` is modelled as insertion order; `order_by`
is a stable sort, with pk as the final tie-break where the source pins
no tie order.
-/

namespace FoodGo

/-- Status values of `Order.STATUS_*` in models.py. -/
inductive OrderStatus
  | pending
  | paid
  | preparing
  | on_the_way
  | delivered
  | canceled
  deriving DecidableEq, Repr

/-- Payment methods `Payment.METHOD_*` in models.py. -/
inductive PayMethod
  | card
  | cash
  deriving DecidableEq, Repr

/-- Payment status values `Payment.STATUS_*` in models.py. -/
inductive PayStatus
  | created
  | success
  | failed
  deriving DecidableEq, Repr

/-- Row of the `Category` model. -/
structure Category where
  id : Nat
  name : String
  deriving DecidableEq, Repr

/-- Row of the `Restaurant` model (fields used by the feed). `rating` is
the `DecimalField(3,1)` in tenths. -/
structure Restaurant where
  id : Nat
  name : String
  rating : Int
  is_open : Bool
  latitude : Rat
  longitude : Rat
  categories : List Nat
  deriving DecidableEq, Repr

/-- Row of the `Product` model (fields used by cart and checkout).
`price` is the `DecimalField(8,2)` in hundredths. -/
structure Product where
  id : Nat
  restaurant : Nat
  title : String
  price : Int
  is_available : Bool
  deriving DecidableEq, Repr

/-- Row of the `Cart` model. -/
structure Cart where
  id : Nat
  user : Nat
  is_active : Bool
  updated_at : Nat
  deriving DecidableEq, Repr

/-- Row of the `CartItem` model, with the add-time price snapshot. -/
structure CartItem where
  id : Nat
  cart : Nat
  product : Nat
  qty : Nat
  title : String
  unit_price : Int
  deriving DecidableEq, Repr

/-- The `CartItem.subtotal` property: `unit_price * qty`. -/
def CartItem.subtotal (ci : CartItem) : Int := ci.unit_price * (ci.qty : Int)

/-- Row of the `Order` model. -/
structure Order where
  id : Nat
  user : Nat
  status : OrderStatus
  address_text : String
  subtotal : Int
  delivery_fee : Int
  total : Int
  deriving DecidableEq, Repr

/-- Row of the `OrderItem` model, the order-time snapshot of a cart item. -/
structure OrderItem where
  id : Nat
  order : Nat
  product : Nat
  title : String
  unit_price : Int
  qty : Nat
  subtotal : Int
  deriving DecidableEq, Repr

/-- Row of the `Payment` model; it is one-to-one with `Order`, so the
`order` key identifies the row. -/
structure Payment where
  order : Nat
  method : PayMethod
  amount : Int
  status : PayStatus
  reference : String
  deriving DecidableEq, Repr

/-- Row of the `OTPCode` model. -/
structure OTPCode where
  id : Nat
  user : Nat
  code : String
  purpose : String
  created_at : Nat
  expires_at : Nat
  attempts : Nat
  is_used : Bool
  deriving DecidableEq, Repr

/-- The `OTPCode.is_valid` method: unused, not expired, fewer than 5
attempts (models.py line 114). -/
def OTPCode.is_valid (o : OTPCode) (now : Nat) : Bool :=
  !o.is_used && decide (now ≤ o.expires_at) && decide (o.attempts < 5)

/-- Row of the `UserAddress` model. -/
structure UserAddress where
  id : Nat
  user : Nat
  label : String
  address : String
  latitude : Option Rat
  longitude : Option Rat
  is_primary : Bool
  created_at : Nat
  deriving DecidableEq, Repr

/-- Row of the `UserLocation` model (one-to-one with the user). -/
structure UserLocation where
  user : Nat
  latitude : Rat
  longitude : Rat
  deriving DecidableEq, Repr

/-- The relational store: one list of rows per model, a pk counter and a
logical clock. -/
structure DB where
  categories : List Category
  restaurants : List Restaurant
  products : List Product
  carts : List Cart
  cartItems : List CartItem
  orders : List Order
  orderItems : List OrderItem
  payments : List Payment
  otps : List OTPCode
  addresses : List UserAddress
  locations : List UserLocation
  nextId : Nat
  now : Nat
  deriving Repr

/-- Errors surfaced by the endpoints (the 4xx taxonomy of the views and
serializers; `noPayment` is the uncaught `Payment.DoesNotExist` in
`payment_confirm`, which the surrounding atomic block rolls back). -/
inductive ApiErr
  | notFound
  | emptyCart
  | orderNotPending
  | noPayment
  | otpNotFound
  | otpExpired
  | otpMismatch
  deriving DecidableEq, Repr

/-- The queryset `Cart.objects.filter(user=user, is_active=True)`. -/
def activeCarts (db : DB) (u : Nat) : List Cart :=
  db.carts.filter (fun c => decide (c.user = u) && c.is_active)

/-- The related manager `cart.items`: cart items of one cart. -/
def itemsOf (db : DB) (cid : Nat) : List CartItem :=
  db.cartItems.filter (fun it => decide (it.cart = cid))

/-- The `Cart.total` property: sum of item subtotals. -/
def cartTotal (db : DB) (cid : Nat) : Int :=
  ((itemsOf db cid).map CartItem.subtotal).sum

/-- Lookup of the unique `(cart, product)` cart item, as in
`CartItem.objects.get_or_create(cart=..., product=...)`. -/
def findCartItem (db : DB) (cid pid : Nat) : Option CartItem :=
  db.cartItems.find? (fun it => decide (it.cart = cid ∧ it.product = pid))

/-- The ordering `order_by("-updated_at", "-id")` used to pick the
primary active cart: `a` comes before `b`. -/
def cartBefore (a b : Cart) : Prop :=
  b.updated_at < a.updated_at ∨ (a.updated_at = b.updated_at ∧ b.id ≤ a.id)

instance : DecidableRel cartBefore := fun a b => by
  unfold cartBefore; infer_instance

instance : IsTotal Cart cartBefore where
  total a b := by
    unfold cartBefore
    rcases Nat.lt_trichotomy a.updated_at b.updated_at with h | h | h
    · exact Or.inr (Or.inl h)
    · rcases Nat.le_total b.id a.id with h2 | h2
      · exact Or.inl (Or.inr ⟨h, h2⟩)
      · exact Or.inr (Or.inr ⟨h.symm, h2⟩)
    · exact Or.inl (Or.inl h)

instance : IsTrans Cart cartBefore where
  trans a b c hab hbc := by
    unfold cartBefore at *
    rcases hab with h1 | ⟨e1, l1⟩
    · rcases hbc with h2 | ⟨e2, l2⟩
      · exact Or.inl (h2.trans h1)
      · exact Or.inl (e2 ▸ h1)
    · rcases hbc with h2 | ⟨e2, l2⟩
      · exact Or.inl (e1 ▸ h2)
      · exact Or.inr ⟨e1.trans e2, l2.trans l1⟩

/-- Increment `qty` of the cart item with the given pk
(`merged.qty += it.qty; merged.save(update_fields=["qty"])`). -/
def bumpCartItemQty (db : DB) (itemId addQty : Nat) : DB :=
  { db with cartItems := db.cartItems.map (fun it =>
      if it.id = itemId then { it with qty := it.qty + addQty } else it) }

/-- Insert a fresh cart item row (the create branch of `get_or_create`). -/
def insertCartItem (db : DB) (cid pid qty : Nat) (title : String) (price : Int) : DB :=
  { db with
    cartItems := db.cartItems ++ [⟨db.nextId, cid, pid, qty, title, price⟩],
    nextId := db.nextId + 1 }

/-- One `get_or_create` step of the duplicate-cart merge in
`_get_or_create_active_cart`: fold item `it` into the primary cart. -/
def mergeItemInto (db : DB) (primaryId : Nat) (it : CartItem) : DB :=
  match findCartItem db primaryId it.product with
  | some merged => bumpCartItemQty db merged.id it.qty
  | none => insertCartItem db primaryId it.product it.qty it.title it.unit_price

/-- Set `is_active = False` on the cart with the given pk. -/
def deactivateCart (db : DB) (cid : Nat) : DB :=
  { db with carts := db.carts.map (fun c =>
      if c.id = cid then { c with is_active := false } else c) }

/-- Merge all items of one duplicate active cart into the primary cart,
then deactivate the duplicate (inner loop of `_get_or_create_active_cart`). -/
def mergeDupCart (db : DB) (primaryId dupId : Nat) : DB :=
  let its := itemsOf db dupId
  deactivateCart (its.foldl (fun d it => mergeItemInto d primaryId it) db) dupId

/-- `_get_or_create_active_cart` (views.py lines 531-564): lock the
active carts of the user ordered by `("-updated_at", "-id")`; if any
exist, merge every duplicate into the first and deactivate the
duplicates, returning the first; otherwise create a fresh active cart. -/
def getOrCreateActiveCart (db : DB) (u : Nat) : DB × Cart :=
  match (activeCarts db u).insertionSort cartBefore with
  | [] =>
      let c : Cart := ⟨db.nextId, u, true, db.now⟩
      ({ db with carts := db.carts ++ [c], nextId := db.nextId + 1 }, c)
  | primary :: dups =>
      (dups.foldl (fun d dup => mergeDupCart d primary.id dup.id) db, primary)

/-- `cart_add` (views.py lines 582-601): resolve product (must exist and
be available), resolve the active cart, then `get_or_create` the
`(cart, product)` item, incrementing `qty` when the row exists. -/
def cart_add (db : DB) (u pid qty : Nat) : DB × Except ApiErr Cart :=
  match db.products.find? (fun p => decide (p.id = pid) && p.is_available) with
  | none => (db, .error .notFound)
  | some product =>
    let res := getOrCreateActiveCart db u
    match findCartItem res.1 res.2.id pid with
    | some item => (bumpCartItemQty res.1 item.id qty, .ok res.2)
    | none => (insertCartItem res.1 res.2.id pid qty product.title product.price, .ok res.2)

/-- Is the cart with this pk active (`cart__is_active=True` lookup)? -/
def cartActive (db : DB) (cid : Nat) : Bool :=
  db.carts.any (fun c => decide (c.id = cid) && c.is_active)

/-- PATCH branch of `cart_item_update_delete`: set the qty of an item
that belongs to an active cart. -/
def cart_item_update (db : DB) (itemId qty : Nat) : DB × Except ApiErr Unit :=
  match db.cartItems.find? (fun it => decide (it.id = itemId) && cartActive db it.cart) with
  | none => (db, .error .notFound)
  | some _ =>
      ({ db with cartItems := db.cartItems.map (fun it =>
          if it.id = itemId then { it with qty := qty } else it) }, .ok ())

/-- DELETE branch of `cart_item_update_delete`: delete an item that
belongs to an active cart. -/
def cart_item_delete (db : DB) (itemId : Nat) : DB × Except ApiErr Unit :=
  match db.cartItems.find? (fun it => decide (it.id = itemId) && cartActive db it.cart) with
  | none => (db, .error .notFound)
  | some _ =>
      ({ db with cartItems := db.cartItems.filter (fun it => !decide (it.id = itemId)) }, .ok ())

/-- `cart_clear` (views.py lines 625-638): delete all items of the first
active cart of the user, if any. -/
def cart_clear (db : DB) (u : Nat) : DB :=
  match (activeCarts db u).head? with
  | none => db
  | some cart =>
      { db with cartItems := db.cartItems.filter (fun it => !decide (it.cart = cart.id)) }

/-- The snapshot loop of `checkout_create_order`: copy every cart item
into a fresh `OrderItem` (the `bulk_create` assigns consecutive pks). -/
def snapshotItems (orderId : Nat) : Nat → List CartItem → List OrderItem
  | _, [] => []
  | nid, ci :: rest =>
      ⟨nid, orderId, ci.product, ci.title, ci.unit_price, ci.qty, ci.subtotal⟩
        :: snapshotItems orderId (nid + 1) rest

/-- `checkout_create_order` (views.py lines 641-693).  The
`CreateOrderSerializer.validate` lookup `Cart.objects.filter(user=user,
is_active=True).first()` and its empty-cart test, the identical
`cart.items.count() == 0` re-check in the view body, and the atomic
rollback on error collapse, in this sequential model, to the single
guard below.  On success: create the pending order with the snapshotted
totals, bulk-copy the items, create the payment placeholder, deactivate
the cart and `get_or_create` a fresh active cart. -/
def checkout_create_order (db : DB) (u : Nat) (address_text : String)
    (delivery_fee : Int) : DB × Except ApiErr Order :=
  match (activeCarts db u).head? with
  | none => (db, .error .emptyCart)
  | some cart =>
    if (itemsOf db cart.id).length = 0 then (db, .error .emptyCart)
    else
      let subtotal := cartTotal db cart.id
      let total := subtotal + delivery_fee
      let order : Order := ⟨db.nextId, u, .pending, address_text, subtotal, delivery_fee, total⟩
      let db1 : DB := { db with orders := db.orders ++ [order], nextId := db.nextId + 1 }
      let items := itemsOf db cart.id
      let db2 : DB := { db1 with
        orderItems := db1.orderItems ++ snapshotItems order.id db1.nextId items,
        nextId := db1.nextId + items.length }
      let db3 : DB := { db2 with payments := db2.payments ++ [⟨order.id, .card, total, .created, ""⟩] }
      let db4 : DB := deactivateCart db3 cart.id
      let db5 : DB :=
        if (activeCarts db4 u).isEmpty then
          { db4 with carts := db4.carts ++ [⟨db4.nextId, u, true, db4.now⟩],
                     nextId := db4.nextId + 1 }
        else db4
      (db5, .ok order)

/-- `payment_confirm` (views.py lines 696-721) together with
`PaymentCreateSerializer.validate`: require a pending order with the
given pk, load its one-to-one payment (missing payment raises and the
atomic block rolls back), then set method, truncated reference and
success or failed status; on success also move the order to paid. -/
def payment_confirm (db : DB) (oid : Nat) (method : PayMethod) (success : Bool)
    (reference : String) : DB × Except ApiErr Payment :=
  match db.orders.find? (fun o => decide (o.id = oid ∧ o.status = .pending)) with
  | none => (db, .error .orderNotPending)
  | some _ =>
    match db.payments.find? (fun p => decide (p.order = oid)) with
    | none => (db, .error .noPayment)
    | some pay =>
      let pay' : Payment := { pay with
        method := method, reference := reference.take 64,
        status := if success then .success else .failed }
      let db1 : DB := { db with payments := db.payments.map (fun p =>
          if p.order = oid then
            { p with method := method, reference := reference.take 64,
                     status := if success then .success else .failed }
          else p) }
      let db2 : DB :=
        if success then
          { db1 with orders := db1.orders.map (fun o =>
              if o.id = oid then { o with status := .paid } else o) }
        else db1
      (db2, .ok pay')

/-- The ordering `order_by("-created_at")` on OTP rows, with pk as
tie-break: `a` comes before `b`. -/
def otpBefore (a b : OTPCode) : Prop :=
  b.created_at < a.created_at ∨ (a.created_at = b.created_at ∧ b.id ≤ a.id)

instance : DecidableRel otpBefore := fun a b => by
  unfold otpBefore; infer_instance

instance : IsTotal OTPCode otpBefore where
  total a b := by
    unfold otpBefore
    rcases Nat.lt_trichotomy a.created_at b.created_at with h | h | h
    · exact Or.inr (Or.inl h)
    · rcases Nat.le_total b.id a.id with h2 | h2
      · exact Or.inl (Or.inr ⟨h, h2⟩)
      · exact Or.inr (Or.inr ⟨h.symm, h2⟩)
    · exact Or.inl (Or.inl h)

instance : IsTrans OTPCode otpBefore where
  trans a b c hab hbc := by
    unfold otpBefore at *
    rcases hab with h1 | ⟨e1, l1⟩
    · rcases hbc with h2 | ⟨e2, l2⟩
      · exact Or.inl (h2.trans h1)
      · exact Or.inl (e2 ▸ h1)
    · rcases hbc with h2 | ⟨e2, l2⟩
      · exact Or.inl (e1 ▸ h2)
      · exact Or.inr ⟨e1.trans e2, l2.trans l1⟩

/-- `OTPCode.objects.filter(user=user, purpose=purpose,
is_used=False).order_by("-created_at").first()`. -/
def latestUnusedOtp (db : DB) (u : Nat) (purpose : String) : Option OTPCode :=
  ((db.otps.filter (fun o => decide (o.user = u ∧ o.purpose = purpose) && !o.is_used)).insertionSort
    otpBefore).head?

/-- Increment `attempts` on the OTP row with the given pk. -/
def bumpOtpAttempts (db : DB) (otpId : Nat) : DB :=
  { db with otps := db.otps.map (fun o =>
      if o.id = otpId then { o with attempts := o.attempts + 1 } else o) }

/-- `VerifyOTPSerializer` validate + save (serializers.py lines 95-136):
the fetch, the `is_valid` gate (bumping attempts on failure), the code
comparison (bumping attempts on mismatch), and marking the row used on
match. -/
def verify_otp (db : DB) (u : Nat) (code : String) : DB × Except ApiErr Unit :=
  match latestUnusedOtp db u "signup" with
  | none => (db, .error .otpNotFound)
  | some otp =>
    if !otp.is_valid db.now then (bumpOtpAttempts db otp.id, .error .otpExpired)
    else if otp.code ≠ code then (bumpOtpAttempts db otp.id, .error .otpMismatch)
    else
      ({ db with otps := db.otps.map (fun o =>
          if o.id = otp.id then { o with is_used := true } else o) }, .ok ())

/-- The `UserAddress.Meta.ordering = ["-is_primary", "-created_at"]`
relation, with pk as tie-break: `a` comes before `b`. -/
def addrBefore (a b : UserAddress) : Prop :=
  (a.is_primary = true ∧ b.is_primary = false) ∨
    (a.is_primary = b.is_primary ∧
      (b.created_at < a.created_at ∨ (a.created_at = b.created_at ∧ b.id ≤ a.id)))

instance : DecidableRel addrBefore := fun a b => by
  unfold addrBefore; infer_instance

instance : IsTotal UserAddress addrBefore where
  total a b := by
    unfold addrBefore
    cases hp : a.is_primary <;> cases hq : b.is_primary
    · rcases Nat.lt_trichotomy a.created_at b.created_at with h | h | h
      · exact Or.inr (Or.inr ⟨rfl, Or.inl h⟩)
      · rcases Nat.le_total b.id a.id with h2 | h2
        · exact Or.inl (Or.inr ⟨rfl, Or.inr ⟨h, h2⟩⟩)
        · exact Or.inr (Or.inr ⟨rfl, Or.inr ⟨h.symm, h2⟩⟩)
      · exact Or.inl (Or.inr ⟨rfl, Or.inl h⟩)
    · exact Or.inr (Or.inl ⟨rfl, rfl⟩)
    · exact Or.inl (Or.inl ⟨rfl, rfl⟩)
    · rcases Nat.lt_trichotomy a.created_at b.created_at with h | h | h
      · exact Or.inr (Or.inr ⟨rfl, Or.inl h⟩)
      · rcases Nat.le_total b.id a.id with h2 | h2
        · exact Or.inl (Or.inr ⟨rfl, Or.inr ⟨h, h2⟩⟩)
        · exact Or.inr (Or.inr ⟨rfl, Or.inr ⟨h.symm, h2⟩⟩)
      · exact Or.inl (Or.inr ⟨rfl, Or.inl h⟩)

instance : IsTrans UserAddress addrBefore where
  trans a b c hab hbc := by
    unfold addrBefore at *
    rcases hab with ⟨pa, qb⟩ | ⟨e1, r1⟩
    · rcases hbc with ⟨pb, _⟩ | ⟨e2, _⟩
      · exact absurd pb (by simp [qb])
      · exact Or.inl ⟨pa, e2 ▸ qb⟩
    · rcases hbc with ⟨pb, qc⟩ | ⟨e2, r2⟩
      · exact Or.inl ⟨e1 ▸ pb, qc⟩
      · refine Or.inr ⟨e1.trans e2, ?_⟩
        rcases r1 with h1 | ⟨f1, l1⟩
        · rcases r2 with h2 | ⟨f2, l2⟩
          · exact Or.inl (h2.trans h1)
          · exact Or.inl (f2 ▸ h1)
        · rcases r2 with h2 | ⟨f2, l2⟩
          · exact Or.inl (f1 ▸ h2)
          · exact Or.inr ⟨f1.trans f2, l2.trans l1⟩

/-- `user.addresses.all()` in its model ordering. -/
def userAddresses (db : DB) (u : Nat) : List UserAddress :=
  (db.addresses.filter (fun a => decide (a.user = u))).insertionSort addrBefore

/-- `_clear_primaries`: `u.addresses.filter(is_primary=True).update(is_primary=False)`. -/
def clearPrimaries (db : DB) (u : Nat) : DB :=
  { db with addresses := db.addresses.map (fun a =>
      if a.user = u ∧ a.is_primary = true then { a with is_primary := false } else a) }

/-- The address text `f"{lat:.5f}, {lon:.5f}"` of a new auto-created
address; exact float formatting is immaterial to the claims, so the
model renders the same coordinate pair exactly. -/
def addressLine (lat lon : Rat) : String :=
  toString lat ++ ", " ++ toString lon

/-- `UserLocation.objects.update_or_create(user=user, defaults=...)`. -/
def upsertLocationRow (db : DB) (u : Nat) (lat lon : Rat) : DB :=
  if db.locations.any (fun l => decide (l.user = u)) then
    { db with locations := db.locations.map (fun l =>
        if l.user = u then ⟨u, lat, lon⟩ else l) }
  else { db with locations := db.locations ++ [⟨u, lat, lon⟩] }

/-- The loop test of `LocationUpsertSerializer.save`: does address `a`
have coordinates within 50 m (via `near`, the float Haversine test) of
the upserted point? -/
def nearPred (near : Rat → Rat → Rat → Rat → Bool) (lat lon : Rat)
    (a : UserAddress) : Bool :=
  match a.latitude, a.longitude with
  | some aLat, some aLon => near lat lon aLat aLon
  | _, _ => false

/-- `LocationUpsertSerializer.save` (serializers.py lines 142-209).
`near lat lon aLat aLon` stands for the float test
`_haversine_m(lat, lon, a.latitude, a.longitude) <= 50.0`.  Upsert the
location row; when `saveAddress` is set, promote the first address (in
model ordering) within 50 m to primary, or else create a new primary
address labeled Home for a first address and Other afterwards. -/
def upsert_location (db : DB) (u : Nat) (lat lon : Rat) (saveAddress : Bool)
    (near : Rat → Rat → Rat → Rat → Bool) : DB :=
  let db0 := upsertLocationRow db u lat lon
  if saveAddress then
    match (userAddresses db0 u).find? (nearPred near lat lon) with
    | some existing =>
        let db1 := clearPrimaries db0 u
        { db1 with addresses := db1.addresses.map (fun x =>
            if x.id = existing.id then { x with is_primary := true } else x) }
    | none =>
        let label := if (db0.addresses.filter (fun a => decide (a.user = u))).isEmpty
          then "Home" else "Other"
        let db1 := clearPrimaries db0 u
        { db1 with
          addresses := db1.addresses ++
            [⟨db1.nextId, u, label, addressLine lat lon, some lat, some lon, true, db1.now⟩],
          nextId := db1.nextId + 1 }
  else db0

/-- Sort key relation of `rows.sort(key=lambda t: (t[0], -float(t[1].rating)))`
in `HomeFeedView.get`: ascending distance, then descending rating. -/
def feedRowBefore (x y : Rat × Restaurant) : Prop :=
  x.1 < y.1 ∨ (x.1 = y.1 ∧ y.2.rating ≤ x.2.rating)

instance : DecidableRel feedRowBefore := fun a b => by
  unfold feedRowBefore; infer_instance

instance : IsTotal (Rat × Restaurant) feedRowBefore where
  total a b := by
    unfold feedRowBefore
    rcases lt_trichotomy a.1 b.1 with h | h | h
    · exact Or.inl (Or.inl h)
    · rcases le_total b.2.rating a.2.rating with h2 | h2
      · exact Or.inl (Or.inr ⟨h, h2⟩)
      · exact Or.inr (Or.inr ⟨h.symm, h2⟩)
    · exact Or.inr (Or.inl h)

instance : IsTrans (Rat × Restaurant) feedRowBefore where
  trans a b c hab hbc := by
    unfold feedRowBefore at *
    rcases hab with h1 | ⟨e1, l1⟩
    · rcases hbc with h2 | ⟨e2, l2⟩
      · exact Or.inl (h1.trans h2)
      · exact Or.inl (e2 ▸ h1)
    · rcases hbc with h2 | ⟨e2, l2⟩
      · exact Or.inl (e1 ▸ h2)
      · exact Or.inr ⟨e1.trans e2, l2.trans l1⟩

/-- Name ordering of `Category.objects...order_by("name")`; the
character-list lexicographic order stands for the database collation of
the name column. -/
def catBefore (a b : Category) : Prop := a.name.data ≤ b.name.data

instance : DecidableRel catBefore := fun a b => by
  unfold catBefore; infer_instance

instance : IsTotal Category catBefore where
  total a b := le_total a.name.data b.name.data

instance : IsTrans Category catBefore where
  trans _ _ _ hab hbc := le_trans hab hbc

/-- Name ordering of `Restaurant.Meta.ordering = ["name"]` (models.py
line 195); the character-list lexicographic order stands for the
database collation of the name column. -/
def restBefore (a b : Restaurant) : Prop := a.name.data ≤ b.name.data

instance : DecidableRel restBefore := fun a b => by
  unfold restBefore; infer_instance

instance : IsTotal Restaurant restBefore where
  total a b := le_total a.name.data b.name.data

instance : IsTrans Restaurant restBefore where
  trans _ _ _ hab hbc := le_trans hab hbc

/-- Bounding-box filter of the feed: within `delta` degrees on both axes. -/
def inBox (lat lon delta : Rat) (r : Restaurant) : Bool :=
  decide (lat - delta ≤ r.latitude) && decide (r.latitude ≤ lat + delta) &&
    decide (lon - delta ≤ r.longitude) && decide (r.longitude ≤ lon + delta)

/-- Result of `HomeFeedView.get`. -/
structure FeedResult where
  categories : List Category
  restaurants : List Restaurant
  deriving DecidableEq, Repr

/-- `Restaurant.objects.filter(is_open=True)`: the open restaurants in
the model default ordering `Meta.ordering = ["name"]` (models.py line
195), realized as a stable name sort of the stored rows. -/
def openRestaurants (db : DB) : List Restaurant :=
  (db.restaurants.filter (fun r => r.is_open)).insertionSort restBefore

/-- The candidate loop of `HomeFeedView.get`: bounding-box prefilter of
the open restaurants with `delta = radius_km / 111`, then the exact
distance test, keeping `(distance, restaurant)` pairs. -/
def feedRows (db : DB) (lat lon radius_km : Rat)
    (dist : Rat → Rat → Rat → Rat → Rat) : List (Rat × Restaurant) :=
  ((openRestaurants db).filter (inBox lat lon (radius_km / 111))).filterMap (fun r =>
    let d := dist lat lon r.latitude r.longitude
    if d ≤ radius_km then some (d, r) else none)

/-- The restaurants returned with coordinates: the candidate rows sorted
by `(distance, -rating)` and truncated to `MAX_RESTAURANTS = 40`. -/
def feedRestaurants (db : DB) (lat lon radius_km : Rat)
    (dist : Rat → Rat → Rat → Rat → Rat) : List Restaurant :=
  (((feedRows db lat lon radius_km dist).insertionSort feedRowBefore).take 40).map Prod.snd

/-- `HomeFeedView.get` (views.py lines 372-452), after the coordinates
have been resolved.  `dist lat lon bLat bLon` stands for the float
Haversine `_distance_km`.  With coordinates: bounding-box prefilter of
open restaurants, exact-distance filter, stable sort by
`(distance, -rating)`, truncation to `MAX_RESTAURANTS = 40`, categories
restricted to those used by the returned restaurants.  Without
coordinates: the first 40 open restaurants in the model name ordering
(the queryset inherits `Restaurant.Meta.ordering = ["name"]`) and all
categories, ordered by name. -/
def home_feed (db : DB) (coords : Option (Rat × Rat)) (radius_km : Rat)
    (dist : Rat → Rat → Rat → Rat → Rat) : FeedResult :=
  match coords with
  | some (lat, lon) =>
      let restaurants := feedRestaurants db lat lon radius_km dist
      let catIds := (restaurants.map Restaurant.categories).flatten
      let cats := (db.categories.filter (fun c => catIds.contains c.id)).insertionSort catBefore
      ⟨cats, restaurants⟩
  | none =>
      ⟨db.categories.insertionSort catBefore, (openRestaurants db).take 40⟩

/-- A price or title edit through `ProductViewSet` update. -/
def product_update (db : DB) (pid : Nat) (title : String) (price : Int) : DB :=
  { db with products := db.products.map (fun p =>
      if p.id = pid then { p with title := title, price := price } else p) }

/-- The write operations of the modeled endpoints, for frame and
invariant statements that range over whole operation sequences. -/
inductive Op
  | cartGet (u : Nat)
  | cartAdd (u pid qty : Nat)
  | cartItemUpdate (itemId qty : Nat)
  | cartItemDelete (itemId : Nat)
  | cartClear (u : Nat)
  | checkout (u : Nat) (addr : String) (fee : Int)
  | payConfirm (oid : Nat) (m : PayMethod) (success : Bool) (ref : String)
  | verifyOtp (u : Nat) (code : String)
  | upsertLoc (u : Nat) (lat lon : Rat) (save : Bool) (near : Rat → Rat → Rat → Rat → Bool)
  | productUpdate (pid : Nat) (title : String) (price : Int)

/-- State transition of one operation (responses discarded). -/
def applyOp (db : DB) : Op → DB
  | .cartGet u => (getOrCreateActiveCart db u).1
  | .cartAdd u pid qty => (cart_add db u pid qty).1
  | .cartItemUpdate itemId qty => (cart_item_update db itemId qty).1
  | .cartItemDelete itemId => (cart_item_delete db itemId).1
  | .cartClear u => cart_clear db u
  | .checkout u addr fee => (checkout_create_order db u addr fee).1
  | .payConfirm oid m s r => (payment_confirm db oid m s r).1
  | .verifyOtp u code => (verify_otp db u code).1
  | .upsertLoc u lat lon save near => upsert_location db u lat lon save near
  | .productUpdate pid title price => product_update db pid title price

/-! ## General helper lemmas -/

theorem find?_eq_none_of_forall {α : Type} {p : α → Bool} {l : List α}
    (h : ∀ x ∈ l, p x = false) : l.find? p = none :=
  List.find?_eq_none.mpr (fun x hx => by simp [h x hx])

/-! ## Payment confirmation lemmas -/

/-- When the order is not pending (or absent), `payment_confirm` rejects
and leaves the store untouched. -/
theorem payment_confirm_not_pending {db : DB} {oid : Nat} (m : PayMethod)
    (success : Bool) (ref : String)
    (h : ∀ o ∈ db.orders, ¬(o.id = oid ∧ o.status = .pending)) :
    payment_confirm db oid m success ref = (db, .error .orderNotPending) := by
  unfold payment_confirm
  rw [find?_eq_none_of_forall (fun o ho => by simpa using h o ho)]

/-- When the pending order exists but has no payment row,
`payment_confirm` rejects and leaves the store untouched. -/
theorem payment_confirm_no_payment {db : DB} {oid : Nat} (m : PayMethod)
    (success : Bool) (ref : String)
    (hpend : ∃ o ∈ db.orders, o.id = oid ∧ o.status = .pending)
    (h : ∀ p ∈ db.payments, p.order ≠ oid) :
    payment_confirm db oid m success ref = (db, .error .noPayment) := by
  unfold payment_confirm
  have hs : (db.orders.find? (fun o => decide (o.id = oid ∧ o.status = .pending))).isSome := by
    rw [List.find?_isSome]
    obtain ⟨o, ho, h1, h2⟩ := hpend
    exact ⟨o, ho, by simp [h1, h2]⟩
  rcases hfind : db.orders.find? (fun o => decide (o.id = oid ∧ o.status = .pending)) with _ | o'
  · rw [hfind] at hs; simp at hs
  · rw [hfind, find?_eq_none_of_forall (fun p hp => by simpa using h p hp)]

/-- The store produced by a `payment_confirm` that passes both guards. -/
def confirmedDB (db : DB) (oid : Nat) (m : PayMethod) (success : Bool)
    (ref : String) : DB :=
  { db with
    payments := db.payments.map (fun p =>
      if p.order = oid then
        { p with method := m, reference := ref.take 64,
                 status := if success then .success else .failed }
      else p),
    orders := if success then
        db.orders.map (fun o => if o.id = oid then { o with status := .paid } else o)
      else db.orders }

/-- A `payment_confirm` on a pending order with a payment row updates the
store as `confirmedDB` describes. -/
theorem payment_confirm_state {db : DB} {oid : Nat} (m : PayMethod)
    (success : Bool) (ref : String)
    (hpend : ∃ o ∈ db.orders, o.id = oid ∧ o.status = .pending)
    (hpay : ∃ p ∈ db.payments, p.order = oid) :
    (payment_confirm db oid m success ref).1 = confirmedDB db oid m success ref := by
  unfold payment_confirm
  have hs : (db.orders.find? (fun o => decide (o.id = oid ∧ o.status = .pending))).isSome := by
    rw [List.find?_isSome]
    obtain ⟨o, ho, h1, h2⟩ := hpend
    exact ⟨o, ho, by simp [h1, h2]⟩
  rcases hfind : db.orders.find? (fun o => decide (o.id = oid ∧ o.status = .pending)) with _ | o'
  · rw [hfind] at hs; simp at hs
  · have hs2 : (db.payments.find? (fun p => decide (p.order = oid))).isSome := by
      rw [List.find?_isSome]
      obtain ⟨p, hp, h1⟩ := hpay
      exact ⟨p, hp, by simp [h1]⟩
    rcases hfind2 : db.payments.find? (fun p => decide (p.order = oid)) with _ | pay
    · rw [hfind2] at hs2; simp at hs2
    · rw [hfind, hfind2]
      cases success <;> rfl

/-- The payments table of `confirmedDB`, spelled out. -/
theorem confirmedDB_payments (db : DB) (oid : Nat) (m : PayMethod)
    (success : Bool) (ref : String) :
    (confirmedDB db oid m success ref).payments =
      db.payments.map (fun p =>
        if p.order = oid then
          { p with method := m, reference := ref.take 64,
                   status := if success then .success else .failed }
        else p) := rfl

/-- The orders table of `confirmedDB` after a successful confirmation. -/
theorem confirmedDB_orders_success (db : DB) (oid : Nat) (m : PayMethod) (ref : String) :
    (confirmedDB db oid m true ref).orders =
      db.orders.map (fun o => if o.id = oid then { o with status := .paid } else o) := by
  simp [confirmedDB]

/-- The orders table of `confirmedDB` after a failed confirmation. -/
theorem confirmedDB_orders_failure (db : DB) (oid : Nat) (m : PayMethod) (ref : String) :
    (confirmedDB db oid m false ref).orders = db.orders := by
  simp [confirmedDB]

/-- Every payment row keyed by the confirmed order carries the new status. -/
theorem confirmed_payment_status (db : DB) (oid : Nat) (m : PayMethod)
    (success : Bool) (ref : String) :
    ∀ p' ∈ (confirmedDB db oid m success ref).payments, p'.order = oid →
      p'.status = (if success then .success else .failed) := by
  intro p' hp' hord
  rw [confirmedDB_payments, List.mem_map] at hp'
  obtain ⟨p, hp, hval⟩ := hp'
  by_cases hc : p.order = oid
  · rw [if_pos hc] at hval
    rw [← hval]
  · rw [if_neg hc] at hval
    exact absurd (hval ▸ hord) hc

/-- After a successful confirmation, every order row with the confirmed
pk is paid (hence no longer pending). -/
theorem confirmed_order_paid (db : DB) (oid : Nat) (m : PayMethod) (ref : String) :
    ∀ o' ∈ (confirmedDB db oid m true ref).orders, o'.id = oid →
      o'.status = .paid := by
  intro o' ho' hid
  rw [confirmedDB_orders_success, List.mem_map] at ho'
  obtain ⟨o, ho, hval⟩ := ho'
  by_cases hc : o.id = oid
  · rw [if_pos hc] at hval
    rw [← hval]
  · rw [if_neg hc] at hval
    exact absurd (hval ▸ hid) hc

/-- Claim C3: the payment confirmation transition rejects when the order
is not pending or has no Payment; when pending with success it moves the
Payment to success and the Order from pending to paid; when pending with
failure it moves the Payment to failed and leaves the orders untouched
(the order stays pending). -/
theorem payment_confirm_transition_spec (db : DB) (oid : Nat) (m : PayMethod)
    (success : Bool) (ref : String) :
    ((∀ o ∈ db.orders, ¬(o.id = oid ∧ o.status = .pending)) →
      payment_confirm db oid m success ref = (db, .error .orderNotPending)) ∧
    ((∃ o ∈ db.orders, o.id = oid ∧ o.status = .pending) →
      (∀ p ∈ db.payments, p.order ≠ oid) →
      payment_confirm db oid m success ref = (db, .error .noPayment)) ∧
    ((∃ o ∈ db.orders, o.id = oid ∧ o.status = .pending) →
      (∃ p ∈ db.payments, p.order = oid) →
      (∀ p' ∈ (payment_confirm db oid m success ref).1.payments, p'.order = oid →
        p'.status = (if success then .success else .failed)) ∧
      (success = true →
        ∀ o' ∈ (payment_confirm db oid m success ref).1.orders, o'.id = oid →
          o'.status = .paid) ∧
      (success = false → (payment_confirm db oid m success ref).1.orders = db.orders)) := by
  refine ⟨payment_confirm_not_pending m success ref,
          payment_confirm_no_payment m success ref, ?_⟩
  intro hpend hpay
  rw [payment_confirm_state m success ref hpend hpay]
  refine ⟨confirmed_payment_status db oid m success ref, ?_, ?_⟩
  · intro hsucc
    subst hsucc
    exact confirmed_order_paid db oid m ref
  · intro hfail
    subst hfail
    exact confirmedDB_orders_failure db oid m ref

/-- Concrete store with one pending order and its created payment. -/
def paySampleDB : DB :=
  ⟨[], [], [], [], [], [⟨1, 7, .pending, "", 100, 0, 100⟩], [],
    [⟨1, .card, 100, .created, ""⟩], [], [], [], 2, 0⟩

/-- Witness for C3 on `paySampleDB`: a successful confirmation of order 1
marks its payment success. -/
theorem payment_confirm_transition_spec_witness :
    (∃ o ∈ paySampleDB.orders, o.id = 1 ∧ o.status = .pending) ∧
    (∃ p ∈ paySampleDB.payments, p.order = 1) ∧
    (∀ p' ∈ (payment_confirm paySampleDB 1 .card true "ref").1.payments,
      p'.order = 1 → p'.status = .success) :=
  ⟨by decide, by decide,
    fun p' hp' ho =>
      ((payment_confirm_transition_spec paySampleDB 1 .card true "ref").2.2
        (by decide) (by decide)).1 p' hp' ho⟩

/-- Claim C10: once a confirmation succeeds, the order is no longer
pending, so every later confirmation is rejected and changes nothing;
after a failed confirmation the order is still pending, so a later
confirmation is accepted and overwrites the failed payment status. -/
theorem payment_reconfirm_spec (db : DB) (oid : Nat) (m m' : PayMethod)
    (ref ref' : String)
    (hpend : ∃ o ∈ db.orders, o.id = oid ∧ o.status = .pending)
    (hpay : ∃ p ∈ db.payments, p.order = oid) :
    (∀ s' : Bool,
      payment_confirm (payment_confirm db oid m true ref).1 oid m' s' ref' =
        ((payment_confirm db oid m true ref).1, .error .orderNotPending)) ∧
    (∃ o ∈ (payment_confirm db oid m false ref).1.orders,
        o.id = oid ∧ o.status = .pending) ∧
    (∀ p' ∈ (payment_confirm (payment_confirm db oid m false ref).1 oid m' true ref').1.payments,
        p'.order = oid → p'.status = .success) := by
  have hsucc := payment_confirm_state m true ref hpend hpay
  have hfail := payment_confirm_state m false ref hpend hpay
  have hpend2 : ∃ o ∈ (payment_confirm db oid m false ref).1.orders,
      o.id = oid ∧ o.status = .pending := by
    rw [hfail, confirmedDB_orders_failure]
    exact hpend
  have hpay2 : ∃ p ∈ (payment_confirm db oid m false ref).1.payments, p.order = oid := by
    rw [hfail, confirmedDB_payments]
    obtain ⟨p, hp, hord⟩ := hpay
    refine ⟨if p.order = oid then
        { p with method := m, reference := ref.take 64,
                 status := if (false : Bool) then .success else .failed }
      else p, List.mem_map.mpr ⟨p, hp, rfl⟩, ?_⟩
    by_cases hc : p.order = oid
    · rw [if_pos hc]
      exact hord
    · rw [if_neg hc]
      exact hord
  refine ⟨?_, hpend2, ?_⟩
  · intro s'
    apply payment_confirm_not_pending
    rw [hsucc]
    intro o ho hcontra
    have := confirmed_order_paid db oid m ref o ho hcontra.1
    rw [this] at hcontra
    exact absurd hcontra.2 (by simp)
  · intro p' hp' ho
    have hst := payment_confirm_state m' true ref' hpend2 hpay2
    rw [hst] at hp'
    have := confirmed_payment_status _ oid m' true ref' p' hp' ho
    simpa using this

/-- Witness for C10 on `paySampleDB`: after a failed confirmation, a
retry with success overwrites the payment to success. -/
theorem payment_reconfirm_spec_witness :
    (∃ o ∈ paySampleDB.orders, o.id = 1 ∧ o.status = .pending) ∧
    (∀ p' ∈ (payment_confirm
        (payment_confirm paySampleDB 1 .card false "a").1 1 .card true "b").1.payments,
      p'.order = 1 → p'.status = .success) :=
  ⟨by decide,
    (payment_reconfirm_spec paySampleDB 1 .card .card "a" "b"
      (by decide) (by decide)).2.2⟩

/-! ## Checkout error lemmas -/

/-- Claim C2: with no active cart, or an empty active cart, checkout
fails with the empty-cart conflict; and every checkout failure leaves
the store exactly as it was (no Order, OrderItem or Payment row, cart
flags untouched). -/
theorem checkout_conflict_spec (db : DB) (u : Nat) (addr : String) (fee : Int) :
    (((activeCarts db u).head? = none ∨
      (∃ cart, (activeCarts db u).head? = some cart ∧ itemsOf db cart.id = [])) →
      checkout_create_order db u addr fee = (db, .error .emptyCart)) ∧
    (∀ e, (checkout_create_order db u addr fee).2 = .error e →
      (checkout_create_order db u addr fee).1 = db ∧ e = .emptyCart) := by
  constructor
  · intro h
    rcases h with h | ⟨cart, hc, hempty⟩
    · unfold checkout_create_order
      rw [h]
    · unfold checkout_create_order
      rw [hc]
      simp [hempty]
  · intro e
    unfold checkout_create_order
    rcases hhead : (activeCarts db u).head? with _ | cart
    · intro he
      exact ⟨rfl, by simpa using he.symm⟩
    · dsimp only
      by_cases hlen : (itemsOf db cart.id).length = 0
      · rw [if_pos hlen]
        intro he
        exact ⟨rfl, by simpa using he.symm⟩
      · rw [if_neg hlen]
        intro he
        simp at he

/-- Witness for C2: checkout on a store with no carts at all fails with
the empty-cart conflict and changes nothing. -/
theorem checkout_conflict_spec_witness :
    checkout_create_order ⟨[], [], [], [], [], [], [], [], [], [], [], 1, 0⟩ 1 "" 0 =
      (⟨[], [], [], [], [], [], [], [], [], [], [], 1, 0⟩, .error .emptyCart) :=
  (checkout_conflict_spec ⟨[], [], [], [], [], [], [], [], [], [], [], 1, 0⟩ 1 "" 0).1
    (Or.inl (by decide))

/-! ## OTP verification -/

theorem mem_of_head? {α : Type} {l : List α} {a : α} (h : l.head? = some a) : a ∈ l := by
  cases l with
  | nil => simp at h
  | cons x t =>
      have hx : x = a := by simpa using h
      rw [← hx]
      exact List.mem_cons_self x t

theorem eq_of_mem_of_length_le_one {α : Type} {l : List α} (h : l.length ≤ 1)
    {a b : α} (ha : a ∈ l) (hb : b ∈ l) : a = b := by
  match l, h with
  | [], _ => cases ha
  | [x], _ =>
      simp only [List.mem_singleton] at ha hb
      rw [ha, hb]
  | x :: y :: t, h => simp at h

/-- The row selected by `latestUnusedOtp` is an unused row of the store
for that user and purpose. -/
theorem latestUnusedOtp_props {db : DB} {u : Nat} {pr : String} {otp : OTPCode}
    (h : latestUnusedOtp db u pr = some otp) :
    otp ∈ db.otps ∧ otp.user = u ∧ otp.purpose = pr ∧ otp.is_used = false := by
  unfold latestUnusedOtp at h
  have hmem := mem_of_head? h
  have hmem2 : otp ∈ db.otps.filter
      (fun o => decide (o.user = u ∧ o.purpose = pr) && !o.is_used) :=
    (List.perm_insertionSort otpBefore _).mem_iff.mp hmem
  obtain ⟨h1, h2⟩ := List.mem_filter.mp hmem2
  simp only [Bool.and_eq_true, decide_eq_true_eq, Bool.not_eq_true'] at h2
  exact ⟨h1, h2.1.1, h2.1.2, h2.2⟩

/-- With no unused OTP row, verification fails with the not-found error
and changes nothing. -/
theorem verify_otp_notFound {db : DB} {u : Nat} (code : String)
    (h : latestUnusedOtp db u "signup" = none) :
    verify_otp db u code = (db, .error .otpNotFound) := by
  unfold verify_otp
  rw [h]

/-- Unfolding of `verify_otp` once an OTP row has been selected. -/
theorem verify_otp_eq_some {db : DB} {u : Nat} (code : String) {otp : OTPCode}
    (h : latestUnusedOtp db u "signup" = some otp) :
    verify_otp db u code =
      if !otp.is_valid db.now then (bumpOtpAttempts db otp.id, .error .otpExpired)
      else if otp.code ≠ code then (bumpOtpAttempts db otp.id, .error .otpMismatch)
      else ({ db with otps := db.otps.map (fun o =>
          if o.id = otp.id then { o with is_used := true } else o) }, .ok ()) := by
  unfold verify_otp
  rw [h]

/-- Claim C5: OTP verification fails with NotFound when no unused row
exists; fails (incrementing attempts) when the freshest unused row has
5 attempts or is expired, even on a correct code; fails and increments
attempts on a wrong code; and on a correct code before the fifth
attempt marks the row used, after which a repeat verification with the
same code fails with NotFound when that row was the only active one. -/
theorem verify_otp_spec (db : DB) (u : Nat) (code : String) :
    (latestUnusedOtp db u "signup" = none →
      verify_otp db u code = (db, .error .otpNotFound)) ∧
    (∀ otp, latestUnusedOtp db u "signup" = some otp →
      ((5 ≤ otp.attempts ∨ otp.expires_at < db.now) →
        (verify_otp db u code).2 = .error .otpExpired ∧
        ∃ o' ∈ (verify_otp db u code).1.otps,
          o'.id = otp.id ∧ o'.attempts = otp.attempts + 1) ∧
      (otp.attempts < 5 → db.now ≤ otp.expires_at → otp.code ≠ code →
        (verify_otp db u code).2 = .error .otpMismatch ∧
        ∃ o' ∈ (verify_otp db u code).1.otps,
          o'.id = otp.id ∧ o'.attempts = otp.attempts + 1) ∧
      (otp.attempts < 5 → db.now ≤ otp.expires_at → otp.code = code →
        (verify_otp db u code).2 = .ok () ∧
        (∃ o' ∈ (verify_otp db u code).1.otps, o'.id = otp.id ∧ o'.is_used = true) ∧
        ((∀ o ∈ db.otps, o.user = u → o.purpose = "signup" → o.is_used = false →
            o.id = otp.id) →
          verify_otp (verify_otp db u code).1 u code =
            ((verify_otp db u code).1, .error .otpNotFound)))) := by
  refine ⟨verify_otp_notFound code, ?_⟩
  intro otp hsel
  obtain ⟨hmem, huser, hpurp, hused⟩ := latestUnusedOtp_props hsel
  refine ⟨?_, ?_, ?_⟩
  · intro hbad
    have hval : otp.is_valid db.now = false := by
      rcases hbad with h5 | hexp
      · have : decide (otp.attempts < 5) = false := decide_eq_false (Nat.not_lt.mpr h5)
        simp [OTPCode.is_valid, this]
      · have : decide (db.now ≤ otp.expires_at) = false :=
          decide_eq_false (Nat.not_le.mpr hexp)
        simp [OTPCode.is_valid, this]
    rw [verify_otp_eq_some code hsel, hval]
    refine ⟨rfl, ?_⟩
    refine ⟨{ otp with attempts := otp.attempts + 1 }, ?_, rfl, rfl⟩
    simp only [bumpOtpAttempts]
    exact List.mem_map.mpr ⟨otp, hmem, by rw [if_pos rfl]⟩
  · intro hlt hle hne
    have hval : otp.is_valid db.now = true := by
      simp [OTPCode.is_valid, hused, hlt, hle]
    rw [verify_otp_eq_some code hsel, hval]
    rw [if_neg (by simp), if_pos hne]
    refine ⟨rfl, ?_⟩
    refine ⟨{ otp with attempts := otp.attempts + 1 }, ?_, rfl, rfl⟩
    simp only [bumpOtpAttempts]
    exact List.mem_map.mpr ⟨otp, hmem, by rw [if_pos rfl]⟩
  · intro hlt hle hcode
    have hval : otp.is_valid db.now = true := by
      simp [OTPCode.is_valid, hused, hlt, hle]
    rw [verify_otp_eq_some code hsel, hval]
    rw [if_neg (by simp), if_neg (fun hn => hn hcode)]
    refine ⟨rfl, ?_, ?_⟩
    · refine ⟨{ otp with is_used := true }, ?_, rfl, rfl⟩
      exact List.mem_map.mpr ⟨otp, hmem, by rw [if_pos rfl]⟩
    · intro honly
      apply verify_otp_notFound
      unfold latestUnusedOtp
      have hfil : (List.map (fun o =>
          if o.id = otp.id then { o with is_used := true } else o) db.otps).filter
            (fun o => decide (o.user = u ∧ o.purpose = "signup") && !o.is_used) = [] := by
        rw [List.filter_eq_nil_iff]
        intro x hx
        rw [List.mem_map] at hx
        obtain ⟨o, ho, hxo⟩ := hx
        by_cases hc : o.id = otp.id
        · rw [if_pos hc] at hxo
          rw [← hxo]
          simp
        · rw [if_neg hc] at hxo
          rw [← hxo]
          simp only [Bool.and_eq_true, decide_eq_true_eq, Bool.not_eq_true', not_and]
          intro hup
          intro husd
          exact absurd (honly o ho hup.1 hup.2 husd) hc
      simp only [hfil]
      rfl

/-- Concrete store with a single fresh unused signup OTP. -/
def otpSampleDB : DB :=
  ⟨[], [], [], [], [], [], [], [], [⟨5, 1, "1234", "signup", 0, 100, 0, false⟩],
    [], [], 6, 0⟩

/-- Witness for C5 on `otpSampleDB`: a correct first verification
succeeds, marks the row used, and a repeat verification fails NotFound. -/
theorem verify_otp_spec_witness :
    (latestUnusedOtp otpSampleDB 1 "signup" = some ⟨5, 1, "1234", "signup", 0, 100, 0, false⟩) ∧
    (verify_otp otpSampleDB 1 "1234").2 = .ok () ∧
    (∃ o' ∈ (verify_otp otpSampleDB 1 "1234").1.otps, o'.id = 5 ∧ o'.is_used = true) ∧
    verify_otp (verify_otp otpSampleDB 1 "1234").1 1 "1234" =
      ((verify_otp otpSampleDB 1 "1234").1, .error .otpNotFound) := by
  have h := ((verify_otp_spec otpSampleDB 1 "1234").2
      ⟨5, 1, "1234", "signup", 0, 100, 0, false⟩ (by decide)).2.2
      (by decide) (by decide) (by decide)
  exact ⟨by decide, h.1, h.2.1, h.2.2 (by decide)⟩

/-! ## Cart add -/

/-- When the user has exactly one active cart, the consolidation routine
returns it and leaves the store untouched. -/
theorem getOrCreate_single {db : DB} {u : Nat} {c : Cart}
    (h : activeCarts db u = [c]) :
    getOrCreateActiveCart db u = (db, c) := by
  unfold getOrCreateActiveCart
  rw [h]
  rfl

/-- Claim C6: at most one CartItem row exists per cart and product:
adding a product already in the active cart keeps a single row for that
key, creates no new row, increments that row by the requested quantity,
and leaves the title and unit price snapshot unchanged (whatever the
current catalog price is). -/
theorem cart_add_unique_item_spec (db : DB) (u pid qty : Nat) (c : Cart) (item : CartItem)
    (hactive : activeCarts db u = [c])
    (hprod : (db.products.find? (fun p => decide (p.id = pid) && p.is_available)).isSome)
    (hitem : item ∈ db.cartItems) (hic : item.cart = c.id) (hip : item.product = pid)
    (hkeys : (db.cartItems.filter
      (fun it => decide (it.cart = c.id ∧ it.product = pid))).length ≤ 1) :
    ((cart_add db u pid qty).1.cartItems.filter
      (fun it => decide (it.cart = c.id ∧ it.product = pid))).length = 1 ∧
    (cart_add db u pid qty).1.cartItems.length = db.cartItems.length ∧
    (∃ it' ∈ (cart_add db u pid qty).1.cartItems,
      it'.id = item.id ∧ it'.qty = item.qty + qty ∧ it'.title = item.title ∧
        it'.unit_price = item.unit_price) := by
  rcases hp : db.products.find? (fun p => decide (p.id = pid) && p.is_available) with _ | prod
  · rw [hp] at hprod; simp at hprod
  have hkey : decide (item.cart = c.id ∧ item.product = pid) = true := by
    simp [hic, hip]
  have hitemf : item ∈ db.cartItems.filter
      (fun it => decide (it.cart = c.id ∧ it.product = pid)) :=
    List.mem_filter.mpr ⟨hitem, hkey⟩
  have hfind : (findCartItem db c.id pid).isSome := by
    unfold findCartItem
    rw [List.find?_isSome]
    exact ⟨item, hitem, hkey⟩
  rcases hf : findCartItem db c.id pid with _ | m
  · rw [hf] at hfind; simp at hfind
  have hmprops := List.find?_some (by simpa [findCartItem] using hf)
  have hmmem : m ∈ db.cartItems := List.mem_of_find?_eq_some (by simpa [findCartItem] using hf)
  simp only [Bool.and_eq_true, decide_eq_true_eq] at hmprops
  have hmf : m ∈ db.cartItems.filter
      (fun it => decide (it.cart = c.id ∧ it.product = pid)) :=
    List.mem_filter.mpr ⟨hmmem, by simp [hmprops.1, hmprops.2]⟩
  have hm : m = item := eq_of_mem_of_length_le_one hkeys hmf hitemf
  have hrun : cart_add db u pid qty = (bumpCartItemQty db item.id qty, .ok c) := by
    unfold cart_add
    rw [hp]
    dsimp only
    rw [getOrCreate_single hactive]
    dsimp only
    rw [hf, hm]
  rw [hrun]
  have hcomm : (bumpCartItemQty db item.id qty).cartItems.filter
      (fun it => decide (it.cart = c.id ∧ it.product = pid)) =
      (db.cartItems.filter (fun it => decide (it.cart = c.id ∧ it.product = pid))).map
        (fun it => if it.id = item.id then { it with qty := it.qty + qty } else it) := by
    simp only [bumpCartItemQty]
    rw [List.filter_map]
    congr 1
    apply List.filter_congr
    intro x _
    simp only [Function.comp_apply]
    by_cases hxi : x.id = item.id
    · rw [if_pos hxi]
    · rw [if_neg hxi]
  refine ⟨?_, ?_, ?_⟩
  · rw [hcomm, List.length_map]
    have hpos : 0 < (db.cartItems.filter
        (fun it => decide (it.cart = c.id ∧ it.product = pid))).length :=
      List.length_pos.mpr (List.ne_nil_of_mem hitemf)
    omega
  · simp [bumpCartItemQty]
  · refine ⟨{ item with qty := item.qty + qty }, ?_, rfl, rfl, rfl, rfl⟩
    simp only [bumpCartItemQty]
    exact List.mem_map.mpr ⟨item, hitem, by rw [if_pos rfl]⟩

/-- Concrete store with one active cart holding a product at snapshot
price 40 and quantity 2. -/
def cartAddSampleDB : DB :=
  ⟨[], [], [⟨3, 9, "Burger", 40, true⟩], [⟨1, 1, true, 0⟩],
    [⟨2, 1, 3, 2, "Burger", 40⟩], [], [], [], [], [], [], 4, 0⟩

/-- Witness for C6 on `cartAddSampleDB`: re-adding product 3 with qty 1
bumps the single row to qty 3 with the snapshot untouched. -/
theorem cart_add_unique_item_spec_witness :
    activeCarts cartAddSampleDB 1 = [⟨1, 1, true, 0⟩] ∧
    ((cart_add cartAddSampleDB 1 3 1).1.cartItems.filter
      (fun it => decide (it.cart = 1 ∧ it.product = 3))).length = 1 ∧
    (∃ it' ∈ (cart_add cartAddSampleDB 1 3 1).1.cartItems,
      it'.id = 2 ∧ it'.qty = 3 ∧ it'.title = "Burger" ∧ it'.unit_price = 40) := by
  have h := cart_add_unique_item_spec cartAddSampleDB 1 3 1 ⟨1, 1, true, 0⟩
    ⟨2, 1, 3, 2, "Burger", 40⟩ (by decide) (by decide) (by decide) (by decide)
    (by decide) (by decide)
  exact ⟨by decide, h.1, h.2.2⟩

/-! ## Checkout success -/

/-- The order created by a successful checkout of cart `cid`. -/
def checkoutOrder (db : DB) (u : Nat) (addr : String) (fee : Int) (cid : Nat) : Order :=
  ⟨db.nextId, u, .pending, addr, cartTotal db cid, fee, cartTotal db cid + fee⟩

/-- The store produced by a successful checkout of cart `cid`, mirroring
the write sequence of `checkout_create_order`. -/
def checkoutDB (db : DB) (u : Nat) (addr : String) (fee : Int) (cid : Nat) : DB :=
  let order := checkoutOrder db u addr fee cid
  let db1 : DB := { db with orders := db.orders ++ [order], nextId := db.nextId + 1 }
  let items := itemsOf db cid
  let db2 : DB := { db1 with
    orderItems := db1.orderItems ++ snapshotItems order.id db1.nextId items,
    nextId := db1.nextId + items.length }
  let db3 : DB := { db2 with
    payments := db2.payments ++ [⟨order.id, .card, order.total, .created, ""⟩] }
  let db4 : DB := deactivateCart db3 cid
  if (activeCarts db4 u).isEmpty then
    { db4 with carts := db4.carts ++ [⟨db4.nextId, u, true, db4.now⟩],
               nextId := db4.nextId + 1 }
  else db4

/-- A checkout whose guards pass produces exactly `checkoutDB` and the
`checkoutOrder`. -/
theorem checkout_success {db : DB} {u : Nat} (addr : String) (fee : Int) {cart : Cart}
    (hhead : (activeCarts db u).head? = some cart)
    (hne : (itemsOf db cart.id).length ≠ 0) :
    checkout_create_order db u addr fee =
      (checkoutDB db u addr fee cart.id, .ok (checkoutOrder db u addr fee cart.id)) := by
  unfold checkout_create_order
  rw [hhead]
  dsimp only
  rw [if_neg hne]
  rfl

/-- Every cart item is copied, fields intact, into the snapshot list. -/
theorem snapshotItems_mem (orderId : Nat) (items : List CartItem) :
    ∀ nid : Nat, ∀ ci ∈ items, ∃ oi ∈ snapshotItems orderId nid items,
      oi.order = orderId ∧ oi.product = ci.product ∧ oi.title = ci.title ∧
        oi.unit_price = ci.unit_price ∧ oi.qty = ci.qty ∧ oi.subtotal = ci.subtotal := by
  induction items with
  | nil => intro nid ci h; cases h
  | cons x xs ih =>
      intro nid ci hci
      rcases List.mem_cons.mp hci with h | h
      · subst h
        exact ⟨⟨nid, orderId, ci.product, ci.title, ci.unit_price, ci.qty, ci.subtotal⟩,
          List.mem_cons_self _ _, rfl, rfl, rfl, rfl, rfl, rfl⟩
      · obtain ⟨oi, hmem, hp⟩ := ih (nid + 1) ci h
        exact ⟨oi, List.mem_cons_of_mem _ hmem, hp⟩

/-- The orders table after a successful checkout: the old table plus the
new pending order. -/
theorem checkoutDB_orders (db : DB) (u : Nat) (addr : String) (fee : Int) (cid : Nat) :
    (checkoutDB db u addr fee cid).orders = db.orders ++ [checkoutOrder db u addr fee cid] := by
  unfold checkoutDB deactivateCart
  dsimp only
  split <;> rfl

/-- The order items after a successful checkout: the old table plus the
snapshot of the cart items. -/
theorem checkoutDB_orderItems (db : DB) (u : Nat) (addr : String) (fee : Int) (cid : Nat) :
    (checkoutDB db u addr fee cid).orderItems =
      db.orderItems ++
        snapshotItems (checkoutOrder db u addr fee cid).id (db.nextId + 1) (itemsOf db cid) := by
  unfold checkoutDB deactivateCart
  dsimp only
  split <;> rfl

/-- The payments after a successful checkout: the old table plus the
created card payment of the full total. -/
theorem checkoutDB_payments (db : DB) (u : Nat) (addr : String) (fee : Int) (cid : Nat) :
    (checkoutDB db u addr fee cid).payments =
      db.payments ++
        [⟨(checkoutOrder db u addr fee cid).id, .card,
          (checkoutOrder db u addr fee cid).total, .created, ""⟩] := by
  unfold checkoutDB deactivateCart
  dsimp only
  split <;> rfl

/-- Claim C1: with a nonempty active cart, checkout returns a pending
order whose subtotal is the sum of the snapshot subtotals of the cart
items and whose total adds the delivery fee; it copies every cart item
into an order item, creates a created card payment of the total,
deactivates the source cart, and leaves the user with an active cart. -/
theorem checkout_success_spec (db : DB) (u : Nat) (addr : String) (fee : Int) (cart : Cart)
    (hhead : (activeCarts db u).head? = some cart)
    (hne : (itemsOf db cart.id).length ≠ 0)
    (hbound : ∀ c ∈ db.carts, c.id < db.nextId) :
    (checkout_create_order db u addr fee).2 = .ok (checkoutOrder db u addr fee cart.id) ∧
    (checkoutOrder db u addr fee cart.id).status = .pending ∧
    (checkoutOrder db u addr fee cart.id).subtotal =
      ((itemsOf db cart.id).map CartItem.subtotal).sum ∧
    (checkoutOrder db u addr fee cart.id).total =
      (checkoutOrder db u addr fee cart.id).subtotal + fee ∧
    checkoutOrder db u addr fee cart.id ∈ (checkout_create_order db u addr fee).1.orders ∧
    (∀ ci ∈ itemsOf db cart.id, ∃ oi ∈ (checkout_create_order db u addr fee).1.orderItems,
      oi.order = (checkoutOrder db u addr fee cart.id).id ∧ oi.title = ci.title ∧
        oi.unit_price = ci.unit_price ∧ oi.qty = ci.qty ∧ oi.subtotal = ci.subtotal) ∧
    (∃ pay ∈ (checkout_create_order db u addr fee).1.payments,
      pay.order = (checkoutOrder db u addr fee cart.id).id ∧ pay.method = .card ∧
        pay.status = .created ∧ pay.amount = (checkoutOrder db u addr fee cart.id).total) ∧
    (∀ c' ∈ (checkout_create_order db u addr fee).1.carts, c'.id = cart.id →
      c'.is_active = false) ∧
    (∃ c' ∈ (checkout_create_order db u addr fee).1.carts, c'.user = u ∧
      c'.is_active = true) := by
  have hrun := checkout_success addr fee hhead hne
  have hcid : cart.id < db.nextId :=
    hbound cart (List.mem_of_mem_filter (mem_of_head? hhead))
  rw [hrun]
  refine ⟨rfl, rfl, rfl, rfl, ?_, ?_, ?_, ?_, ?_⟩
  · rw [checkoutDB_orders]
    exact List.mem_append_right _ (List.mem_singleton.mpr rfl)
  · intro ci hci
    obtain ⟨oi, hmem, h1, h2, h3, h4, h5, h6⟩ :=
      snapshotItems_mem (checkoutOrder db u addr fee cart.id).id (itemsOf db cart.id)
        (db.nextId + 1) ci hci
    refine ⟨oi, ?_, h1, h3, h4, h5, h6⟩
    rw [checkoutDB_orderItems]
    exact List.mem_append_right _ hmem
  · refine ⟨⟨(checkoutOrder db u addr fee cart.id).id, .card,
      (checkoutOrder db u addr fee cart.id).total, .created, ""⟩, ?_, rfl, rfl, rfl, rfl⟩
    rw [checkoutDB_payments]
    exact List.mem_append_right _ (List.mem_singleton.mpr rfl)
  · intro c' hc' hid
    unfold checkoutDB deactivateCart at hc'
    dsimp only at hc'
    split at hc'
    · rcases List.mem_append.mp hc' with hl | hr
      · rw [List.mem_map] at hl
        obtain ⟨c0, _, hval⟩ := hl
        by_cases hc0 : c0.id = cart.id
        · rw [if_pos hc0] at hval
          rw [← hval]
        · rw [if_neg hc0] at hval
          exact absurd (hval ▸ hid) hc0
      · rw [List.mem_singleton] at hr
        rw [hr] at hid
        dsimp at hid
        omega
    · rw [List.mem_map] at hc'
      obtain ⟨c0, _, hval⟩ := hc'
      by_cases hc0 : c0.id = cart.id
      · rw [if_pos hc0] at hval
        rw [← hval]
      · rw [if_neg hc0] at hval
        exact absurd (hval ▸ hid) hc0
  · unfold checkoutDB deactivateCart
    dsimp only
    split
    · refine ⟨⟨db.nextId + 1 + (itemsOf db cart.id).length, u, true, db.now⟩, ?_, rfl, rfl⟩
      exact List.mem_append_right _ (List.mem_singleton.mpr rfl)
    · rename_i hfull
      rw [List.isEmpty_iff] at hfull
      obtain ⟨c', hc'⟩ := List.exists_mem_of_ne_nil _ hfull
      have := List.mem_filter.mp hc'
      refine ⟨c', List.mem_of_mem_filter hc', ?_, ?_⟩
      · have h2 := this.2
        simp only [Bool.and_eq_true, decide_eq_true_eq] at h2
        exact h2.1
      · have h2 := this.2
        simp only [Bool.and_eq_true, decide_eq_true_eq] at h2
        exact h2.2

/-- Concrete store with one active cart holding one item (price 40,
qty 2). -/
def checkoutSampleDB : DB :=
  ⟨[], [], [⟨3, 9, "Burger", 40, true⟩], [⟨1, 1, true, 0⟩],
    [⟨2, 1, 3, 2, "Burger", 40⟩], [], [], [], [], [], [], 4, 0⟩

/-- Witness for C1 on `checkoutSampleDB`: checkout with delivery fee 5
returns the pending order snapshot. -/
theorem checkout_success_spec_witness :
    ((activeCarts checkoutSampleDB 1).head? = some ⟨1, 1, true, 0⟩ ∧
      (itemsOf checkoutSampleDB 1).length ≠ 0 ∧
      (∀ c ∈ checkoutSampleDB.carts, c.id < checkoutSampleDB.nextId)) ∧
    (checkout_create_order checkoutSampleDB 1 "addr" 5).2 =
      .ok (checkoutOrder checkoutSampleDB 1 "addr" 5 1) ∧
    (∃ c' ∈ (checkout_create_order checkoutSampleDB 1 "addr" 5).1.carts,
      c'.user = 1 ∧ c'.is_active = true) := by
  have h := checkout_success_spec checkoutSampleDB 1 "addr" 5 ⟨1, 1, true, 0⟩
    (by decide) (by decide) (by decide)
  exact ⟨⟨by decide, by decide, by decide⟩, h.1, h.2.2.2.2.2.2.2.2⟩

/-! ## Order-item immutability (frame lemmas) -/

theorem mergeItemInto_orderItems (d : DB) (pid : Nat) (it : CartItem) :
    (mergeItemInto d pid it).orderItems = d.orderItems := by
  unfold mergeItemInto bumpCartItemQty insertCartItem
  split <;> rfl

theorem foldl_mergeItemInto_orderItems (pid : Nat) (its : List CartItem) :
    ∀ d : DB, ((its.foldl (fun x it => mergeItemInto x pid it) d)).orderItems = d.orderItems := by
  induction its with
  | nil => intro d; rfl
  | cons x xs ih =>
      intro d
      exact (ih (mergeItemInto d pid x)).trans (mergeItemInto_orderItems d pid x)

theorem mergeDupCart_orderItems (d : DB) (pid did : Nat) :
    (mergeDupCart d pid did).orderItems = d.orderItems := by
  unfold mergeDupCart deactivateCart
  exact foldl_mergeItemInto_orderItems pid (itemsOf d did) d

theorem foldl_mergeDupCart_orderItems (pid : Nat) (ds : List Cart) :
    ∀ d : DB, ((ds.foldl (fun x dup => mergeDupCart x pid dup.id) d)).orderItems =
      d.orderItems := by
  induction ds with
  | nil => intro d; rfl
  | cons x xs ih =>
      intro d
      exact (ih (mergeDupCart d pid x.id)).trans (mergeDupCart_orderItems d pid x.id)

theorem getOrCreate_orderItems (db : DB) (u : Nat) :
    (getOrCreateActiveCart db u).1.orderItems = db.orderItems := by
  unfold getOrCreateActiveCart
  rcases h : (activeCarts db u).insertionSort cartBefore with _ | ⟨p, ds⟩
  · rfl
  · exact foldl_mergeDupCart_orderItems p.id ds db

theorem cart_add_orderItems (db : DB) (u pid qty : Nat) :
    (cart_add db u pid qty).1.orderItems = db.orderItems := by
  unfold cart_add
  rcases hp : db.products.find? (fun p => decide (p.id = pid) && p.is_available) with _ | prod
  · rw [hp]
  · rw [hp]
    dsimp only
    rcases hf : findCartItem (getOrCreateActiveCart db u).1
        (getOrCreateActiveCart db u).2.id pid with _ | item
    · exact getOrCreate_orderItems db u
    · exact getOrCreate_orderItems db u

theorem checkout_orderItems (db : DB) (u : Nat) (addr : String) (fee : Int) :
    ∃ new, (checkout_create_order db u addr fee).1.orderItems = db.orderItems ++ new := by
  rcases hh : (activeCarts db u).head? with _ | cart
  · refine ⟨[], ?_⟩
    unfold checkout_create_order
    rw [hh]
    simp
  · by_cases hlen : (itemsOf db cart.id).length = 0
    · refine ⟨[], ?_⟩
      unfold checkout_create_order
      rw [hh]
      dsimp only
      rw [if_pos hlen]
      simp
    · refine ⟨snapshotItems (checkoutOrder db u addr fee cart.id).id (db.nextId + 1)
        (itemsOf db cart.id), ?_⟩
      rw [checkout_success addr fee hh hlen]
      exact checkoutDB_orderItems db u addr fee cart.id

theorem payment_confirm_orderItems (db : DB) (oid : Nat) (m : PayMethod)
    (s : Bool) (r : String) :
    (payment_confirm db oid m s r).1.orderItems = db.orderItems := by
  unfold payment_confirm
  rcases h1 : db.orders.find? (fun o => decide (o.id = oid ∧ o.status = .pending)) with _ | o
  · rw [h1]
  · rw [h1]
    dsimp only
    rcases h2 : db.payments.find? (fun p => decide (p.order = oid)) with _ | pay
    · rw [h2]
    · rw [h2]
      cases s <;> rfl

theorem verify_otp_orderItems (db : DB) (u : Nat) (code : String) :
    (verify_otp db u code).1.orderItems = db.orderItems := by
  unfold verify_otp
  rcases h : latestUnusedOtp db u "signup" with _ | otp
  · rfl
  · dsimp only
    split
    · rfl
    · split <;> rfl

theorem upsertLocationRow_orderItems (db : DB) (u : Nat) (lat lon : Rat) :
    (upsertLocationRow db u lat lon).orderItems = db.orderItems := by
  unfold upsertLocationRow
  split <;> rfl

theorem upsert_location_orderItems (db : DB) (u : Nat) (lat lon : Rat)
    (save : Bool) (near : Rat → Rat → Rat → Rat → Bool) :
    (upsert_location db u lat lon save near).orderItems = db.orderItems := by
  unfold upsert_location
  dsimp only
  split
  · split
    · exact upsertLocationRow_orderItems db u lat lon
    · exact upsertLocationRow_orderItems db u lat lon
  · exact upsertLocationRow_orderItems db u lat lon

/-- Claim C9: order-item snapshots are immutable: every operation either
leaves the order-item table unchanged or only appends to it, so each
existing OrderItem row survives every operation with all its fields; in
particular a product price or title edit leaves the table untouched. -/
theorem order_item_immutable_spec (db : DB) :
    (∀ op : Op, ∃ new, (applyOp db op).orderItems = db.orderItems ++ new) ∧
    (∀ op : Op, ∀ oi ∈ db.orderItems, oi ∈ (applyOp db op).orderItems) ∧
    (∀ pid title price, (product_update db pid title price).orderItems = db.orderItems) := by
  have hmain : ∀ op : Op, ∃ new, (applyOp db op).orderItems = db.orderItems ++ new := by
    intro op
    cases op with
    | cartGet u => exact ⟨[], by simp [applyOp, getOrCreate_orderItems]⟩
    | cartAdd u pid qty => exact ⟨[], by simp [applyOp, cart_add_orderItems]⟩
    | cartItemUpdate itemId qty =>
        refine ⟨[], ?_⟩
        simp only [applyOp, List.append_nil]
        unfold cart_item_update
        split <;> rfl
    | cartItemDelete itemId =>
        refine ⟨[], ?_⟩
        simp only [applyOp, List.append_nil]
        unfold cart_item_delete
        split <;> rfl
    | cartClear u =>
        refine ⟨[], ?_⟩
        simp only [applyOp, List.append_nil]
        unfold cart_clear
        split <;> rfl
    | checkout u addr fee => exact checkout_orderItems db u addr fee
    | payConfirm oid m s r => exact ⟨[], by simp [applyOp, payment_confirm_orderItems]⟩
    | verifyOtp u code => exact ⟨[], by simp [applyOp, verify_otp_orderItems]⟩
    | upsertLoc u lat lon save near =>
        exact ⟨[], by simp [applyOp, upsert_location_orderItems]⟩
    | productUpdate pid title price => exact ⟨[], by simp [applyOp, product_update]⟩
  refine ⟨hmain, ?_, ?_⟩
  · intro op oi hoi
    obtain ⟨new, hnew⟩ := hmain op
    rw [hnew]
    exact List.mem_append_left _ hoi
  · intro pid title price
    rfl

/-- Concrete store with one paid order and one order item. -/
def orderItemSampleDB : DB :=
  ⟨[], [], [⟨3, 9, "Burger", 40, true⟩], [], [], [⟨4, 1, .paid, "", 80, 0, 80⟩],
    [⟨7, 4, 3, "Burger", 40, 2, 80⟩], [], [], [], [], 8, 0⟩

/-- Witness for C9 on `orderItemSampleDB`: a product price and title edit
leaves the existing order item in place with all fields intact. -/
theorem order_item_immutable_spec_witness :
    (⟨7, 4, 3, "Burger", 40, 2, 80⟩ : OrderItem) ∈ orderItemSampleDB.orderItems ∧
    (⟨7, 4, 3, "Burger", 40, 2, 80⟩ : OrderItem) ∈
      (applyOp orderItemSampleDB (.productUpdate 3 "New Burger" 999)).orderItems :=
  ⟨by decide,
    (order_item_immutable_spec orderItemSampleDB).2.1 (.productUpdate 3 "New Burger" 999)
      ⟨7, 4, 3, "Burger", 40, 2, 80⟩ (by decide)⟩

/-! ## Location upsert and primary addresses -/

theorem upsertLocationRow_addresses (db : DB) (u : Nat) (lat lon : Rat) :
    (upsertLocationRow db u lat lon).addresses = db.addresses := by
  unfold upsertLocationRow
  split <;> rfl

theorem upsertLocationRow_nextId (db : DB) (u : Nat) (lat lon : Rat) :
    (upsertLocationRow db u lat lon).nextId = db.nextId := by
  unfold upsertLocationRow
  split <;> rfl

theorem userAddresses_upsertRow (db : DB) (u v : Nat) (lat lon : Rat) :
    userAddresses (upsertLocationRow db u lat lon) v = userAddresses db v := by
  unfold userAddresses
  rw [upsertLocationRow_addresses]

/-- At most one row of a list carries a given key value when the keys
are duplicate-free. -/
theorem length_filter_key_le_one {α : Type} {l : List α} {f : α → Nat}
    (h : (l.map f).Nodup) (i : Nat) (q : α → Bool) :
    (l.filter (fun x => q x && decide (f x = i))).length ≤ 1 := by
  induction l with
  | nil => simp
  | cons x t ih =>
      rw [List.map_cons, List.nodup_cons] at h
      by_cases hp : (q x && decide (f x = i)) = true
      · rw [List.filter_cons, if_pos hp]
        have hrest : t.filter (fun y => q y && decide (f y = i)) = [] := by
          rw [List.filter_eq_nil_iff]
          intro y hy hqy
          simp only [Bool.and_eq_true, decide_eq_true_eq] at hqy
          have hfx : f x = i := by
            simp only [Bool.and_eq_true, decide_eq_true_eq] at hp
            exact hp.2
          exact h.1 (hfx ▸ hqy.2 ▸ List.mem_map_of_mem f hy)
        rw [hrest]
        simp
      · rw [List.filter_cons, if_neg hp]
        exact ih h.2

/-- Promotion branch of the address upsert: with the located address
`a`, the store maps every address through clear-primaries and then the
promotion of `a`. -/
theorem upsert_promote_run (db : DB) (u : Nat) (lat lon : Rat)
    (near : Rat → Rat → Rat → Rat → Bool) (a : UserAddress)
    (hfind : (userAddresses db u).find? (nearPred near lat lon) = some a) :
    upsert_location db u lat lon true near =
      (let db1 := clearPrimaries (upsertLocationRow db u lat lon) u
       { db1 with addresses := db1.addresses.map (fun x =>
          if x.id = a.id then { x with is_primary := true } else x) }) := by
  unfold upsert_location
  dsimp only
  rw [if_pos rfl, userAddresses_upsertRow, hfind]

/-- Creation branch of the address upsert: with no address within 50 m,
the store clears primaries and appends the fresh primary address. -/
theorem upsert_create_run (db : DB) (u : Nat) (lat lon : Rat)
    (near : Rat → Rat → Rat → Rat → Bool)
    (hfind : (userAddresses db u).find? (nearPred near lat lon) = none) :
    upsert_location db u lat lon true near =
      (let db1 := clearPrimaries (upsertLocationRow db u lat lon) u
       { db1 with
          addresses := db1.addresses ++
            [⟨db.nextId, u,
              (if (db.addresses.filter (fun a => decide (a.user = u))).isEmpty
                then "Home" else "Other"),
              addressLine lat lon, some lat, some lon, true, db.now⟩],
          nextId := db.nextId + 1 }) := by
  unfold upsert_location
  dsimp only
  rw [if_pos rfl, userAddresses_upsertRow, hfind]
  rw [upsertLocationRow_addresses]
  have h1 : (clearPrimaries (upsertLocationRow db u lat lon) u).nextId = db.nextId := by
    unfold clearPrimaries
    rw [upsertLocationRow_nextId]
  have h2 : (clearPrimaries (upsertLocationRow db u lat lon) u).now = db.now := by
    unfold clearPrimaries upsertLocationRow
    split <;> rfl
  rw [h1, h2]

/-- The addresses of the promotion branch, as one composed map. -/
theorem upsert_promote_addresses (db : DB) (u : Nat) (lat lon : Rat)
    (near : Rat → Rat → Rat → Rat → Bool) (a : UserAddress)
    (hfind : (userAddresses db u).find? (nearPred near lat lon) = some a) :
    (upsert_location db u lat lon true near).addresses =
      db.addresses.map (fun x =>
        (fun y => if y.id = a.id then { y with is_primary := true } else y)
          (if x.user = u ∧ x.is_primary = true then { x with is_primary := false } else x)) := by
  rw [upsert_promote_run db u lat lon near a hfind]
  dsimp only
  unfold clearPrimaries
  rw [upsertLocationRow_addresses]
  rw [List.map_map]
  rfl

/-- Claim C7: the address upsert with saveAddress promotes an address
within 50 m to primary (clearing every other primary) instead of
creating one, so a repeated upsert near the unique primary reuses the
same address; otherwise it creates a new primary address labeled Home
for the first address and Other afterwards, with the coordinate pair as
its text; afterwards exactly one of the user addresses is primary. -/
theorem upsert_location_primary_spec (db : DB) (u : Nat) (lat lon : Rat)
    (near : Rat → Rat → Rat → Rat → Bool) :
    (∀ a, (db.addresses.map UserAddress.id).Nodup →
      (userAddresses db u).find? (nearPred near lat lon) = some a →
      (upsert_location db u lat lon true near).addresses.length = db.addresses.length ∧
      (∃ a' ∈ (upsert_location db u lat lon true near).addresses,
        a'.id = a.id ∧ a'.is_primary = true) ∧
      ((upsert_location db u lat lon true near).addresses.filter
        (fun x => decide (x.user = u) && x.is_primary)).length = 1) ∧
    ((userAddresses db u).find? (nearPred near lat lon) = none →
      (upsert_location db u lat lon true near).addresses.length = db.addresses.length + 1 ∧
      (∃ newA ∈ (upsert_location db u lat lon true near).addresses,
        newA.user = u ∧
        newA.label = (if (db.addresses.filter (fun a => decide (a.user = u))).isEmpty
          then "Home" else "Other") ∧
        newA.address = addressLine lat lon ∧ newA.latitude = some lat ∧
        newA.longitude = some lon ∧ newA.is_primary = true) ∧
      ((upsert_location db u lat lon true near).addresses.filter
        (fun x => decide (x.user = u) && x.is_primary)).length = 1) ∧
    (∀ ap la lo, ap ∈ db.addresses → ap.user = u → ap.is_primary = true →
      (∀ x ∈ db.addresses, x.user = u → x.is_primary = true → x = ap) →
      ap.latitude = some la → ap.longitude = some lo → near lat lon la lo = true →
      (userAddresses db u).find? (nearPred near lat lon) = some ap) := by
  refine ⟨?_, ?_, ?_⟩
  · intro a hids hfind
    have hmemS := List.mem_of_find?_eq_some hfind
    have hmemF : a ∈ db.addresses.filter (fun x => decide (x.user = u)) := by
      unfold userAddresses at hmemS
      exact (List.perm_insertionSort addrBefore _).mem_iff.mp hmemS
    have hmem : a ∈ db.addresses := List.mem_of_mem_filter hmemF
    have hauser : a.user = u := by
      have := (List.mem_filter.mp hmemF).2
      simpa using this
    have haddr := upsert_promote_addresses db u lat lon near a hfind
    refine ⟨?_, ?_, ?_⟩
    · rw [haddr, List.length_map]
    · refine ⟨(fun y => if y.id = a.id then { y with is_primary := true } else y)
        (if a.user = u ∧ a.is_primary = true then { a with is_primary := false } else a),
        haddr ▸ List.mem_map_of_mem _ hmem, ?_, ?_⟩
      · by_cases hp : a.user = u ∧ a.is_primary = true <;> simp [hp]
      · by_cases hp : a.user = u ∧ a.is_primary = true <;> simp [hp]
    · rw [haddr]
      rw [List.filter_map]
      have hcong : db.addresses.filter ((fun x => decide (x.user = u) && x.is_primary) ∘
          (fun x =>
            (fun y => if y.id = a.id then { y with is_primary := true } else y)
              (if x.user = u ∧ x.is_primary = true then { x with is_primary := false } else x))) =
          db.addresses.filter (fun x => decide (x.user = u) && decide (x.id = a.id)) := by
        apply List.filter_congr
        intro x _
        simp only [Function.comp_apply]
        by_cases hu : x.user = u
        · by_cases hid : x.id = a.id
          · by_cases hprim : x.is_primary = true <;>
              simp [hu, hid, hprim]
          · by_cases hprim : x.is_primary = true <;>
              simp [hu, hid, hprim]
        · by_cases hid : x.id = a.id
          · by_cases hprim : x.is_primary = true <;>
              simp [hu, hid, hprim]
          · by_cases hprim : x.is_primary = true <;>
              simp [hu, hid, hprim]
      rw [hcong, List.length_map]
      have hle := length_filter_key_le_one hids a.id (fun x => decide (x.user = u))
      have hge : a ∈ db.addresses.filter (fun x => decide (x.user = u) && decide (x.id = a.id)) :=
        List.mem_filter.mpr ⟨hmem, by simp [hauser]⟩
      have hpos := List.length_pos.mpr (List.ne_nil_of_mem hge)
      omega
  · intro hfind
    have hrun := upsert_create_run db u lat lon near hfind
    have haddr : (upsert_location db u lat lon true near).addresses =
        (db.addresses.map (fun x =>
          if x.user = u ∧ x.is_primary = true then { x with is_primary := false } else x)) ++
        [⟨db.nextId, u,
          (if (db.addresses.filter (fun a => decide (a.user = u))).isEmpty
            then "Home" else "Other"),
          addressLine lat lon, some lat, some lon, true, db.now⟩] := by
      rw [hrun]
      dsimp only
      unfold clearPrimaries
      rw [upsertLocationRow_addresses]
    refine ⟨?_, ?_, ?_⟩
    · rw [haddr]
      simp
    · refine ⟨⟨db.nextId, u,
        (if (db.addresses.filter (fun a => decide (a.user = u))).isEmpty
          then "Home" else "Other"),
        addressLine lat lon, some lat, some lon, true, db.now⟩, ?_,
        rfl, rfl, rfl, rfl, rfl, rfl⟩
      rw [haddr]
      exact List.mem_append_right _ (List.mem_singleton.mpr rfl)
    · rw [haddr, List.filter_append]
      have hleft : (db.addresses.map (fun x =>
          if x.user = u ∧ x.is_primary = true then { x with is_primary := false } else x)).filter
          (fun x => decide (x.user = u) && x.is_primary) = [] := by
        rw [List.filter_eq_nil_iff]
        intro y hy
        rw [List.mem_map] at hy
        obtain ⟨x, _, hval⟩ := hy
        by_cases hp : x.user = u ∧ x.is_primary = true
        · rw [if_pos hp] at hval
          rw [← hval]
          simp
        · rw [if_neg hp] at hval
          rw [← hval]
          simp only [Bool.and_eq_true, decide_eq_true_eq, not_and]
          intro hxu
          intro hxp
          exact hp ⟨hxu, hxp⟩
      rw [hleft]
      simp
  · intro ap la lo hmem hu hprim honly hla hlo hnear
    have hmemF : ap ∈ db.addresses.filter (fun x => decide (x.user = u)) :=
      List.mem_filter.mpr ⟨hmem, by simp [hu]⟩
    have hmemS : ap ∈ userAddresses db u := by
      unfold userAddresses
      exact (List.perm_insertionSort addrBefore _).mem_iff.mpr hmemF
    have hsorted : (userAddresses db u).Sorted addrBefore :=
      List.sorted_insertionSort addrBefore _
    rcases hS : userAddresses db u with _ | ⟨h, t⟩
    · rw [hS] at hmemS
      cases hmemS
    · have hhead : h = ap := by
        by_contra hne
        rw [hS] at hmemS
        rcases List.mem_cons.mp hmemS with heq | htail
        · exact hne heq.symm
        · have hhu : h.user = u := by
            have hhF : h ∈ db.addresses.filter (fun x => decide (x.user = u)) := by
              have : h ∈ userAddresses db u := by
                rw [hS]
                exact List.mem_cons_self h t
              unfold userAddresses at this
              exact (List.perm_insertionSort addrBefore _).mem_iff.mp this
            simpa using (List.mem_filter.mp hhF).2
          have hhp : h.is_primary = false := by
            by_contra hc
            have : h.is_primary = true := by
              cases hb : h.is_primary
              · exact absurd hb hc
              · rfl
            have hmem2 : h ∈ db.addresses := by
              have hhF : h ∈ db.addresses.filter (fun x => decide (x.user = u)) := by
                have : h ∈ userAddresses db u := by
                  rw [hS]
                  exact List.mem_cons_self h t
                unfold userAddresses at this
                exact (List.perm_insertionSort addrBefore _).mem_iff.mp this
              exact List.mem_of_mem_filter hhF
            exact hne (honly h hmem2 hhu this)
          rw [hS] at hsorted
          have hpair := (List.sorted_cons.mp hsorted).1 ap htail
          unfold addrBefore at hpair
          rcases hpair with ⟨hp1, _⟩ | ⟨hp2, _⟩
          · rw [hhp] at hp1
            simp at hp1
          · rw [hhp, hprim] at hp2
            simp at hp2
      rw [hhead]
      apply List.find?_cons_of_pos
      unfold nearPred
      rw [hla, hlo]
      exact hnear

/-- Concrete store with a registered user and no addresses yet. -/
def addrSampleDB : DB :=
  ⟨[], [], [], [], [], [], [], [], [], [], [], 1, 0⟩

/-- Witness for C7 on `addrSampleDB`: the first saved location creates
the single primary Home address. -/
theorem upsert_location_primary_spec_witness :
    ((userAddresses addrSampleDB 1).find?
      (nearPred (fun _ _ _ _ => true) 0 0) = none) ∧
    ((upsert_location addrSampleDB 1 0 0 true (fun _ _ _ _ => true)).addresses.length =
      addrSampleDB.addresses.length + 1 ∧
    (∃ newA ∈ (upsert_location addrSampleDB 1 0 0 true (fun _ _ _ _ => true)).addresses,
      newA.user = 1 ∧
      newA.label = (if (addrSampleDB.addresses.filter
        (fun a => decide (a.user = 1))).isEmpty then "Home" else "Other") ∧
      newA.address = addressLine 0 0 ∧ newA.latitude = some 0 ∧
      newA.longitude = some 0 ∧ newA.is_primary = true) ∧
    ((upsert_location addrSampleDB 1 0 0 true (fun _ _ _ _ => true)).addresses.filter
      (fun x => decide (x.user = 1) && x.is_primary)).length = 1) :=
  ⟨by decide,
    (upsert_location_primary_spec addrSampleDB 1 0 0 (fun _ _ _ _ => true)).2.1 (by decide)⟩

/-! ## Home feed -/

/-- Membership in the name-ordered open-restaurant list: exactly the
stored rows with `is_open = true`. -/
theorem mem_openRestaurants {db : DB} {r : Restaurant} :
    r ∈ openRestaurants db ↔ r ∈ db.restaurants ∧ r.is_open = true := by
  unfold openRestaurants
  rw [(List.perm_insertionSort restBefore _).mem_iff]
  simp [List.mem_filter]

/-- Every candidate row of the feed is an open restaurant in the
bounding box whose recorded distance is the exact distance and is
within the radius. -/
theorem feedRows_mem {db : DB} {lat lon radius : Rat}
    {dist : Rat → Rat → Rat → Rat → Rat} {x : Rat × Restaurant}
    (hx : x ∈ feedRows db lat lon radius dist) :
    x.2 ∈ db.restaurants ∧ x.2.is_open = true ∧
      inBox lat lon (radius / 111) x.2 = true ∧
      x.1 = dist lat lon x.2.latitude x.2.longitude ∧ x.1 ≤ radius := by
  unfold feedRows at hx
  rw [List.mem_filterMap] at hx
  obtain ⟨r, hr, heq⟩ := hx
  dsimp only at heq
  by_cases hd : dist lat lon r.latitude r.longitude ≤ radius
  · rw [if_pos hd] at heq
    cases heq
    obtain ⟨hr1, hr2⟩ := List.mem_filter.mp hr
    obtain ⟨hr3, hr4⟩ := mem_openRestaurants.mp hr1
    exact ⟨hr3, hr4, hr2, rfl, hd⟩
  · rw [if_neg hd] at heq
    simp at heq

/-- Claim C8: with coordinates, the feed returns exactly the open
restaurants in the bounding box whose exact distance is within the
radius (exactly when the candidate set fits the 40 cap), sorted by
ascending distance with descending rating as tie-break and truncated to
40, with categories equal to the union of the categories of the
returned restaurants; without coordinates it returns the first 40 open
restaurants in the model default name ordering — not insertion order —
and all categories. -/
theorem home_feed_spec (db : DB) (lat lon radius : Rat)
    (dist : Rat → Rat → Rat → Rat → Rat) :
    (∀ r ∈ (home_feed db (some (lat, lon)) radius dist).restaurants,
      r ∈ db.restaurants ∧ r.is_open = true ∧ inBox lat lon (radius / 111) r = true ∧
        dist lat lon r.latitude r.longitude ≤ radius) ∧
    ((feedRows db lat lon radius dist).length ≤ 40 →
      ∀ r ∈ db.restaurants, r.is_open = true → inBox lat lon (radius / 111) r = true →
        dist lat lon r.latitude r.longitude ≤ radius →
        r ∈ (home_feed db (some (lat, lon)) radius dist).restaurants) ∧
    ((home_feed db (some (lat, lon)) radius dist).restaurants.length ≤ 40) ∧
    ((home_feed db (some (lat, lon)) radius dist).restaurants.Pairwise (fun r1 r2 =>
      dist lat lon r1.latitude r1.longitude < dist lat lon r2.latitude r2.longitude ∨
        (dist lat lon r1.latitude r1.longitude = dist lat lon r2.latitude r2.longitude ∧
          r2.rating ≤ r1.rating))) ∧
    (∀ c, c ∈ (home_feed db (some (lat, lon)) radius dist).categories ↔
      (c ∈ db.categories ∧ ∃ r ∈ (home_feed db (some (lat, lon)) radius dist).restaurants,
        c.id ∈ r.categories)) ∧
    ((home_feed db none radius dist).restaurants = (openRestaurants db).take 40) ∧
    (∀ r ∈ (home_feed db none radius dist).restaurants,
      r ∈ db.restaurants ∧ r.is_open = true) ∧
    ((db.restaurants.filter (fun r => r.is_open)).length ≤ 40 →
      ∀ r ∈ db.restaurants, r.is_open = true →
        r ∈ (home_feed db none radius dist).restaurants) ∧
    ((home_feed db none radius dist).restaurants.length ≤ 40) ∧
    ((home_feed db none radius dist).restaurants.Pairwise restBefore) ∧
    (∀ c, c ∈ (home_feed db none radius dist).categories ↔ c ∈ db.categories) := by
  have hres : (home_feed db (some (lat, lon)) radius dist).restaurants =
      feedRestaurants db lat lon radius dist := rfl
  refine ⟨?_, ?_, ?_, ?_, ?_, rfl, ?_, ?_, ?_, ?_, ?_⟩
  · intro r hr
    rw [hres] at hr
    unfold feedRestaurants at hr
    rw [List.mem_map] at hr
    obtain ⟨x, hx, hxr⟩ := hr
    have hx2 := List.mem_of_mem_take hx
    have hx3 : x ∈ feedRows db lat lon radius dist :=
      (List.perm_insertionSort feedRowBefore _).mem_iff.mp hx2
    have h := feedRows_mem hx3
    rw [hxr] at h
    exact ⟨h.1, h.2.1, h.2.2.1, h.2.2.2.1 ▸ h.2.2.2.2⟩
  · intro hlen r hr hopen hbox hd
    rw [hres]
    unfold feedRestaurants
    have hlen2 : ((feedRows db lat lon radius dist).insertionSort feedRowBefore).length ≤ 40 :=
      le_trans (le_of_eq (List.perm_insertionSort feedRowBefore _).length_eq) hlen
    rw [List.take_of_length_le hlen2]
    have hpair : (dist lat lon r.latitude r.longitude, r) ∈ feedRows db lat lon radius dist := by
      unfold feedRows
      rw [List.mem_filterMap]
      refine ⟨r, ?_, ?_⟩
      · exact List.mem_filter.mpr ⟨mem_openRestaurants.mpr ⟨hr, hopen⟩, hbox⟩
      · dsimp only
        rw [if_pos hd]
    have hsortmem : (dist lat lon r.latitude r.longitude, r) ∈
        (feedRows db lat lon radius dist).insertionSort feedRowBefore :=
      (List.perm_insertionSort feedRowBefore _).mem_iff.mpr hpair
    exact List.mem_map.mpr ⟨_, hsortmem, rfl⟩
  · rw [hres]
    unfold feedRestaurants
    rw [List.length_map]
    exact le_trans (List.length_take_le 40 _) (le_refl _)
  · rw [hres]
    unfold feedRestaurants
    rw [List.pairwise_map]
    have hs : ((feedRows db lat lon radius dist).insertionSort feedRowBefore).Pairwise
        feedRowBefore := List.sorted_insertionSort feedRowBefore _
    have ht : (((feedRows db lat lon radius dist).insertionSort feedRowBefore).take 40).Pairwise
        feedRowBefore := hs.sublist (List.take_sublist 40 _)
    refine List.Pairwise.imp_of_mem ?_ ht
    intro a b ha hb hab
    have ha2 := feedRows_mem ((List.perm_insertionSort feedRowBefore _).mem_iff.mp
      (List.mem_of_mem_take ha))
    have hb2 := feedRows_mem ((List.perm_insertionSort feedRowBefore _).mem_iff.mp
      (List.mem_of_mem_take hb))
    unfold feedRowBefore at hab
    rw [ha2.2.2.2.1, hb2.2.2.2.1] at hab
    exact hab
  · intro c
    have hcats : (home_feed db (some (lat, lon)) radius dist).categories =
        (db.categories.filter (fun x =>
          ((feedRestaurants db lat lon radius dist).map Restaurant.categories).flatten.contains
            x.id)).insertionSort catBefore := rfl
    rw [hcats]
    rw [(List.perm_insertionSort catBefore _).mem_iff]
    rw [List.mem_filter]
    constructor
    · rintro ⟨h1, h2⟩
      refine ⟨h1, ?_⟩
      have h3 : c.id ∈ ((feedRestaurants db lat lon radius dist).map
          Restaurant.categories).flatten := by
        simpa [List.contains] using h2
      rw [List.mem_flatten] at h3
      obtain ⟨s, hs, hcs⟩ := h3
      rw [List.mem_map] at hs
      obtain ⟨r, hr, hrs⟩ := hs
      exact ⟨r, hr, hrs ▸ hcs⟩
    · rintro ⟨h1, r, hr, hcr⟩
      refine ⟨h1, ?_⟩
      have h3 : c.id ∈ ((feedRestaurants db lat lon radius dist).map
          Restaurant.categories).flatten :=
        List.mem_flatten.mpr ⟨r.categories, List.mem_map_of_mem _ hr, hcr⟩
      simpa [List.contains] using h3
  · intro r hr
    have hr2 : r ∈ (openRestaurants db).take 40 := hr
    exact mem_openRestaurants.mp (List.mem_of_mem_take hr2)
  · intro hlen r hr hopen
    have hlen2 : (openRestaurants db).length ≤ 40 := by
      unfold openRestaurants
      rw [(List.perm_insertionSort restBefore _).length_eq]
      exact hlen
    show r ∈ (openRestaurants db).take 40
    rw [List.take_of_length_le hlen2]
    exact mem_openRestaurants.mpr ⟨hr, hopen⟩
  · show ((openRestaurants db).take 40).length ≤ 40
    exact List.length_take_le 40 _
  · have hs : ((db.restaurants.filter (fun r => r.is_open)).insertionSort
        restBefore).Pairwise restBefore := List.sorted_insertionSort restBefore _
    have ht : (openRestaurants db).Pairwise restBefore := hs
    exact ht.sublist (List.take_sublist 40 _)
  · intro c
    have hcats : (home_feed db none radius dist).categories =
        db.categories.insertionSort catBefore := rfl
    rw [hcats]
    exact (List.perm_insertionSort catBefore _).mem_iff

/-- Concrete store with one category and no restaurants. -/
def feedSampleDB : DB :=
  ⟨[⟨1, "Pizza"⟩], [], [], [], [], [], [], [], [], [], [], 2, 0⟩

/-- Witness for C8 on `feedSampleDB`: both cap hypotheses hold and the
no-coordinate feed returns the name-ordered open restaurants and all
categories. -/
theorem home_feed_spec_witness :
    ((feedRows feedSampleDB 0 0 10 (fun _ _ _ _ => 0)).length ≤ 40) ∧
    ((feedSampleDB.restaurants.filter (fun r => r.is_open)).length ≤ 40) ∧
    ((home_feed feedSampleDB none 10 (fun _ _ _ _ => 0)).restaurants =
      (openRestaurants feedSampleDB).take 40) ∧
    (∀ c, c ∈ (home_feed feedSampleDB none 10 (fun _ _ _ _ => 0)).categories ↔
      c ∈ feedSampleDB.categories) :=
  ⟨by decide, by decide,
    (home_feed_spec feedSampleDB 0 0 10 (fun _ _ _ _ => 0)).2.2.2.2.2.1,
    (home_feed_spec feedSampleDB 0 0 10 (fun _ _ _ _ => 0)).2.2.2.2.2.2.2.2.2.2⟩

/-- Store with two open restaurants whose stored (insertion) order
disagrees with their name order. -/
def feedOrderCexDB : DB :=
  ⟨[], [⟨1, "Zed", 45, true, 0, 0, []⟩, ⟨2, "Alpha", 45, true, 0, 0, []⟩],
    [], [], [], [], [], [], [], [], [], 3, 0⟩

/-- Counterexample to the claim that the no-coordinate feed lists the
open restaurants in unsorted insertion order: `Restaurant.Meta.ordering
= ["name"]` makes the queryset return Alpha before Zed, not the stored
order Zed, Alpha. -/
theorem home_feed_insertion_order_counterexample :
    (home_feed feedOrderCexDB none 10 (fun _ _ _ _ => 0)).restaurants ≠
      (feedOrderCexDB.restaurants.filter (fun r => r.is_open)).take 40 := by
  decide

/-! ## Cart consolidation: helpers -/

/-- Well-formedness of the cart-item table: duplicate-free pks, all
below the pk counter. -/
def ItemsWF (db : DB) : Prop :=
  (db.cartItems.map CartItem.id).Nodup ∧ ∀ it ∈ db.cartItems, it.id < db.nextId

theorem nodup_map_inj {α β : Type} {f : α → β} {l : List α} (h : (l.map f).Nodup)
    {a b : α} (ha : a ∈ l) (hb : b ∈ l) (hf : f a = f b) : a = b := by
  induction l with
  | nil => cases ha
  | cons x t ih =>
      rw [List.map_cons, List.nodup_cons] at h
      rcases List.mem_cons.mp ha with rfl | ha2
      · rcases List.mem_cons.mp hb with rfl | hb2
        · rfl
        · exact absurd (by rw [hf]; exact List.mem_map_of_mem f hb2) h.1
      · rcases List.mem_cons.mp hb with rfl | hb2
        · exact absurd (by rw [← hf]; exact List.mem_map_of_mem f ha2) h.1
        · exact ih h.2 ha2 hb2

theorem length_le_one_shape {α : Type} {l : List α} (h : l.length ≤ 1) :
    l = [] ∨ ∃ a, l = [a] := by
  match l, h with
  | [], _ => exact Or.inl rfl
  | [a], _ => exact Or.inr ⟨a, rfl⟩
  | x :: y :: t, h => simp at h

theorem activeCarts_congr {db1 db2 : DB} (h : db1.carts = db2.carts) (w : Nat) :
    activeCarts db1 w = activeCarts db2 w := by
  unfold activeCarts
  rw [h]

/-- Deactivating a cart restricts the active set to the other pks. -/
theorem activeCarts_deactivate (db : DB) (cid w : Nat) :
    activeCarts (deactivateCart db cid) w =
      (activeCarts db w).filter (fun c => !decide (c.id = cid)) := by
  unfold activeCarts deactivateCart
  dsimp only
  rw [List.filter_map]
  have h1 : db.carts.filter ((fun c => decide (c.user = w) && c.is_active) ∘
      (fun c => if c.id = cid then { c with is_active := false } else c)) =
      db.carts.filter (fun c =>
        (decide (c.user = w) && c.is_active) && !decide (c.id = cid)) := by
    apply List.filter_congr
    intro x _
    simp only [Function.comp_apply]
    by_cases hc : x.id = cid
    · simp [hc]
    · simp [hc]
  rw [h1]
  rw [List.filter_filter]
  have h2 : ∀ x ∈ db.carts.filter (fun c =>
      (!decide (c.id = cid)) && (decide (c.user = w) && c.is_active)),
      (if x.id = cid then { x with is_active := false } else x) = x := by
    intro x hx
    have := (List.mem_filter.mp hx).2
    simp only [Bool.and_eq_true, Bool.not_eq_true', decide_eq_false_iff_not] at this
    rw [if_neg this.1]
  have h3 : db.carts.filter (fun c =>
      ((decide (c.user = w) && c.is_active) && !decide (c.id = cid))) =
      db.carts.filter (fun c =>
      ((!decide (c.id = cid)) && (decide (c.user = w) && c.is_active))) := by
    apply List.filter_congr
    intro x _
    rw [Bool.and_comm]
  rw [h3, List.map_congr_left h2, List.map_id']

theorem mergeItemInto_carts (d : DB) (pid : Nat) (it : CartItem) :
    (mergeItemInto d pid it).carts = d.carts := by
  unfold mergeItemInto bumpCartItemQty insertCartItem
  split <;> rfl

theorem payment_confirm_carts (db : DB) (oid : Nat) (m : PayMethod) (s : Bool) (r : String) :
    (payment_confirm db oid m s r).1.carts = db.carts := by
  unfold payment_confirm
  rcases h1 : db.orders.find? (fun o => decide (o.id = oid ∧ o.status = .pending)) with _ | o
  · rw [h1]
  · rw [h1]
    dsimp only
    rcases h2 : db.payments.find? (fun p => decide (p.order = oid)) with _ | pay
    · rw [h2]
    · rw [h2]
      cases s <;> rfl

theorem verify_otp_carts (db : DB) (u : Nat) (code : String) :
    (verify_otp db u code).1.carts = db.carts := by
  unfold verify_otp
  rcases h : latestUnusedOtp db u "signup" with _ | otp
  · rfl
  · dsimp only
    split
    · rfl
    · split <;> rfl

theorem upsertLocationRow_carts (db : DB) (u : Nat) (lat lon : Rat) :
    (upsertLocationRow db u lat lon).carts = db.carts := by
  unfold upsertLocationRow
  split <;> rfl

theorem upsert_location_carts (db : DB) (u : Nat) (lat lon : Rat)
    (save : Bool) (near : Rat → Rat → Rat → Rat → Bool) :
    (upsert_location db u lat lon save near).carts = db.carts := by
  unfold upsert_location
  dsimp only
  split
  · split
    · exact upsertLocationRow_carts db u lat lon
    · exact upsertLocationRow_carts db u lat lon
  · exact upsertLocationRow_carts db u lat lon

/-- Total quantity of a product across the items of one cart. -/
def qtyKey (db : DB) (cid pid : Nat) : Nat :=
  ((db.cartItems.filter
    (fun it => decide (it.cart = cid) && decide (it.product = pid))).map CartItem.qty).sum

/-- Bumping the qty of the row with pk `m.id` adds exactly that amount
to any key-filtered qty sum containing `m`. -/
theorem sum_qty_bump {l : List CartItem} (h : (l.map CartItem.id).Nodup)
    {m : CartItem} (hm : m ∈ l) (a : Nat) (q : CartItem → Bool)
    (hq : ∀ x : CartItem, q { x with qty := x.qty + a } = q x) :
    (((l.map (fun x => if x.id = m.id then { x with qty := x.qty + a } else x)).filter q).map
      CartItem.qty).sum =
    ((l.filter q).map CartItem.qty).sum + (if q m then a else 0) := by
  induction l with
  | nil => cases hm
  | cons x t ih =>
      rw [List.map_cons, List.nodup_cons] at h
      rcases List.mem_cons.mp hm with rfl | hm2
      · have htail : t.map (fun y => if y.id = m.id then { y with qty := y.qty + a } else y) = t := by
          have hpt : ∀ y ∈ t,
              (if y.id = m.id then { y with qty := y.qty + a } else y) = y := by
            intro y hy
            rw [if_neg (fun hc => h.1 (by rw [← hc]; exact List.mem_map_of_mem CartItem.id hy))]
          rw [List.map_congr_left hpt, List.map_id']
        rw [List.map_cons, if_pos rfl, htail]
        rw [List.filter_cons, List.filter_cons, hq m]
        by_cases hqm : q m = true
        · rw [if_pos hqm, if_pos hqm, if_pos hqm]
          simp only [List.map_cons, List.sum_cons]
          omega
        · rw [if_neg hqm, if_neg hqm, if_neg hqm]
          omega
      · have hxm : x.id ≠ m.id := fun hc => h.1 (hc ▸ List.mem_map_of_mem CartItem.id hm2)
        rw [List.map_cons, if_neg hxm]
        rw [List.filter_cons, List.filter_cons]
        by_cases hqx : q x = true
        · rw [if_pos hqx, if_pos hqx]
          simp only [List.map_cons, List.sum_cons]
          rw [ih h.2 hm2]
          omega
        · rw [if_neg hqx, if_neg hqx]
          exact ih h.2 hm2

theorem mergeItemInto_wf (d : DB) (pid : Nat) (it : CartItem) (hwf : ItemsWF d) :
    ItemsWF (mergeItemInto d pid it) := by
  unfold mergeItemInto
  rcases hf : findCartItem d pid it.product with _ | m
  · unfold insertCartItem ItemsWF
    dsimp only
    constructor
    · rw [List.map_append]
      rw [List.nodup_append]
      refine ⟨hwf.1, List.nodup_singleton _, ?_⟩
      intro a ha hb
      simp only [List.map_cons, List.map_nil, List.mem_singleton] at hb
      have hb2 : a = d.nextId := hb
      rw [List.mem_map] at ha
      obtain ⟨y, hy, hya⟩ := ha
      have := hwf.2 y hy
      omega
    · intro x hx
      rcases List.mem_append.mp hx with hl | hr
      · have := hwf.2 x hl
        omega
      · rw [List.mem_singleton] at hr
        rw [hr]
        exact Nat.lt_succ_self d.nextId
  · unfold bumpCartItemQty ItemsWF
    dsimp only
    constructor
    · have : (d.cartItems.map (fun x =>
          if x.id = m.id then { x with qty := x.qty + it.qty } else x)).map CartItem.id =
          d.cartItems.map CartItem.id := by
        rw [List.map_map]
        apply List.map_congr_left
        intro x _
        simp only [Function.comp_apply]
        by_cases hc : x.id = m.id
        · rw [if_pos hc]
        · rw [if_neg hc]
      rw [this]
      exact hwf.1
    · intro x hx
      rw [List.mem_map] at hx
      obtain ⟨y, hy, hyx⟩ := hx
      have := hwf.2 y hy
      by_cases hc : y.id = m.id
      · rw [if_pos hc] at hyx
        rw [← hyx]
        simpa using this
      · rw [if_neg hc] at hyx
        rw [← hyx]
        exact this

theorem mergeItemInto_itemsOf_ne (d : DB) (pid : Nat) (it : CartItem) (cid : Nat)
    (hne : cid ≠ pid) (hwf : ItemsWF d) :
    itemsOf (mergeItemInto d pid it) cid = itemsOf d cid := by
  unfold mergeItemInto
  rcases hf : findCartItem d pid it.product with _ | m
  · unfold insertCartItem itemsOf
    dsimp only
    rw [List.filter_append]
    have : [(⟨d.nextId, pid, it.product, it.qty, it.title, it.unit_price⟩ : CartItem)].filter
        (fun x => decide (x.cart = cid)) = [] := by
      simp [Ne.symm hne]
    rw [this, List.append_nil]
  · have hm := List.find?_some (by simpa [findCartItem] using hf)
    have hmm := List.mem_of_find?_eq_some (by simpa [findCartItem] using hf)
    simp only [Bool.and_eq_true, decide_eq_true_eq] at hm
    unfold bumpCartItemQty itemsOf
    dsimp only
    rw [List.filter_map]
    have h1 : d.cartItems.filter ((fun x => decide (x.cart = cid)) ∘
        (fun x => if x.id = m.id then { x with qty := x.qty + it.qty } else x)) =
        d.cartItems.filter (fun x => decide (x.cart = cid)) := by
      apply List.filter_congr
      intro x _
      simp only [Function.comp_apply]
      by_cases hc : x.id = m.id
      · rw [if_pos hc]
      · rw [if_neg hc]
    rw [h1]
    have h2 : ∀ x ∈ d.cartItems.filter (fun x => decide (x.cart = cid)),
        (if x.id = m.id then { x with qty := x.qty + it.qty } else x) = x := by
      intro x hx
      obtain ⟨hx1, hx2⟩ := List.mem_filter.mp hx
      simp only [decide_eq_true_eq] at hx2
      have hxm : x ≠ m := by
        intro hc
        rw [hc, hm.1] at hx2
        exact hne hx2.symm
      rw [if_neg (fun hc => hxm (nodup_map_inj hwf.1 hx1 hmm hc))]
    rw [List.map_congr_left h2, List.map_id']

theorem mergeItemInto_qtyKey (d : DB) (pid : Nat) (it : CartItem) (p : Nat)
    (hwf : ItemsWF d) :
    qtyKey (mergeItemInto d pid it) pid p =
      qtyKey d pid p + (if it.product = p then it.qty else 0) := by
  unfold mergeItemInto
  rcases hf : findCartItem d pid it.product with _ | m
  · unfold insertCartItem qtyKey
    dsimp only
    rw [List.filter_append, List.map_append, List.sum_append]
    by_cases hip : it.product = p
    · simp [hip]
    · simp [hip]
  · have hm := List.find?_some (by simpa [findCartItem] using hf)
    have hmm := List.mem_of_find?_eq_some (by simpa [findCartItem] using hf)
    simp only [Bool.and_eq_true, decide_eq_true_eq] at hm
    unfold bumpCartItemQty qtyKey
    dsimp only
    rw [sum_qty_bump hwf.1 hmm it.qty
      (fun y => decide (y.cart = pid) && decide (y.product = p)) (fun x => rfl)]
    have : (decide (m.cart = pid) && decide (m.product = p)) =
        decide (it.product = p) := by
      by_cases hip : it.product = p
      · simp [hm.1, hm.2, hip]
      · simp [hm.1, hm.2, hip]
    rw [this]
    by_cases hip : it.product = p
    · simp [hip]
    · simp [hip]

theorem mergeItemInto_snapshot (d : DB) (pid : Nat) (it : CartItem) :
    ∀ x ∈ itemsOf (mergeItemInto d pid it) pid,
      (∃ y ∈ itemsOf d pid, y.product = x.product ∧ y.title = x.title ∧
        y.unit_price = x.unit_price) ∨
      (x.product = it.product ∧ x.title = it.title ∧ x.unit_price = it.unit_price) := by
  intro x hx
  unfold mergeItemInto at hx
  rcases hf : findCartItem d pid it.product with _ | m
  · rw [hf] at hx
    unfold insertCartItem itemsOf at hx
    dsimp only at hx
    rw [List.filter_append] at hx
    rcases List.mem_append.mp hx with hl | hr
    · exact Or.inl ⟨x, hl, rfl, rfl, rfl⟩
    · have := List.mem_of_mem_filter hr
      rw [List.mem_singleton] at this
      rw [this]
      exact Or.inr ⟨rfl, rfl, rfl⟩
  · rw [hf] at hx
    unfold bumpCartItemQty itemsOf at hx
    dsimp only at hx
    rw [List.filter_map] at hx
    have h1 : d.cartItems.filter ((fun y => decide (y.cart = pid)) ∘
        (fun y => if y.id = m.id then { y with qty := y.qty + it.qty } else y)) =
        d.cartItems.filter (fun y => decide (y.cart = pid)) := by
      apply List.filter_congr
      intro z _
      simp only [Function.comp_apply]
      by_cases hc : z.id = m.id
      · rw [if_pos hc]
      · rw [if_neg hc]
    rw [h1] at hx
    rw [List.mem_map] at hx
    obtain ⟨y, hy, hyx⟩ := hx
    refine Or.inl ⟨y, hy, ?_⟩
    by_cases hc : y.id = m.id
    · rw [if_pos hc] at hyx
      rw [← hyx]
      exact ⟨rfl, rfl, rfl⟩
    · rw [if_neg hc] at hyx
      rw [← hyx]
      exact ⟨rfl, rfl, rfl⟩

/-- The two-step filter form of `qtyKey`. -/
theorem qtyKey_eq_itemsOf (db : DB) (cid pid : Nat) :
    qtyKey db cid pid =
      (((itemsOf db cid).filter (fun it => decide (it.product = pid))).map CartItem.qty).sum := by
  unfold qtyKey itemsOf
  rw [List.filter_filter]
  have h : db.cartItems.filter (fun it => decide (it.cart = cid) && decide (it.product = pid)) =
      db.cartItems.filter (fun a => decide (a.product = pid) && decide (a.cart = cid)) := by
    apply List.filter_congr
    intro x _
    rw [Bool.and_comm]
  rw [h]

/-- Facts about folding the items of one duplicate cart into the
primary: well-formedness, frame on carts and on items of other carts,
quantity bookkeeping and snapshot provenance. -/
theorem foldl_mergeItemInto_facts (pid : Nat) (its : List CartItem) :
    ∀ d : DB, ItemsWF d →
    ItemsWF (its.foldl (fun x it => mergeItemInto x pid it) d) ∧
    (its.foldl (fun x it => mergeItemInto x pid it) d).carts = d.carts ∧
    (∀ cid, cid ≠ pid →
      itemsOf (its.foldl (fun x it => mergeItemInto x pid it) d) cid = itemsOf d cid) ∧
    (∀ p, qtyKey (its.foldl (fun x it => mergeItemInto x pid it) d) pid p =
      qtyKey d pid p +
        ((its.filter (fun it => decide (it.product = p))).map CartItem.qty).sum) ∧
    (∀ x ∈ itemsOf (its.foldl (fun x it => mergeItemInto x pid it) d) pid,
      (∃ y ∈ itemsOf d pid, y.product = x.product ∧ y.title = x.title ∧
        y.unit_price = x.unit_price) ∨
      (∃ it0 ∈ its, x.product = it0.product ∧ x.title = it0.title ∧
        x.unit_price = it0.unit_price)) := by
  induction its with
  | nil =>
      intro d hwf
      exact ⟨hwf, rfl, fun _ _ => rfl, fun p => by simp,
        fun x hx => Or.inl ⟨x, hx, rfl, rfl, rfl⟩⟩
  | cons it rest ih =>
      intro d hwf
      have hwf1 := mergeItemInto_wf d pid it hwf
      obtain ⟨ihwf, ihcarts, ihitems, ihqty, ihsnap⟩ := ih (mergeItemInto d pid it) hwf1
      refine ⟨ihwf, ?_, ?_, ?_, ?_⟩
      · exact ihcarts.trans (mergeItemInto_carts d pid it)
      · intro cid hcid
        exact (ihitems cid hcid).trans (mergeItemInto_itemsOf_ne d pid it cid hcid hwf)
      · intro p
        rw [List.foldl_cons]
        rw [ihqty p, mergeItemInto_qtyKey d pid it p hwf]
        rw [List.filter_cons]
        by_cases hip : it.product = p
        · rw [if_pos hip,
            if_pos (show decide (it.product = p) = true from by simpa using hip)]
          simp only [List.map_cons, List.sum_cons]
          omega
        · rw [if_neg hip,
            if_neg (show ¬decide (it.product = p) = true from by simpa using hip)]
          omega
      · intro x hx
        rcases ihsnap x hx with ⟨y, hy, hmatch⟩ | ⟨it0, hit0, hmatch⟩
        · rcases mergeItemInto_snapshot d pid it y hy with ⟨z, hz, hzm⟩ | hzm
          · exact Or.inl ⟨z, hz, hzm.1.trans hmatch.1, hzm.2.1.trans hmatch.2.1,
              hzm.2.2.trans hmatch.2.2⟩
          · refine Or.inr ⟨it, List.mem_cons_self _ _, ?_, ?_, ?_⟩
            · rw [← hmatch.1]
              exact hzm.1
            · rw [← hmatch.2.1]
              exact hzm.2.1
            · rw [← hmatch.2.2]
              exact hzm.2.2
        · exact Or.inr ⟨it0, List.mem_cons_of_mem _ hit0, hmatch⟩

/-- The same facts for merging one whole duplicate cart and
deactivating it. -/
theorem mergeDupCart_facts (d : DB) (pid did : Nat) (hwf : ItemsWF d) :
    ItemsWF (mergeDupCart d pid did) ∧
    (mergeDupCart d pid did).carts =
      d.carts.map (fun c => if c.id = did then { c with is_active := false } else c) ∧
    (∀ cid, cid ≠ pid → itemsOf (mergeDupCart d pid did) cid = itemsOf d cid) ∧
    (∀ p, qtyKey (mergeDupCart d pid did) pid p = qtyKey d pid p + qtyKey d did p) ∧
    (∀ x ∈ itemsOf (mergeDupCart d pid did) pid,
      (∃ y ∈ itemsOf d pid, y.product = x.product ∧ y.title = x.title ∧
        y.unit_price = x.unit_price) ∨
      (∃ y ∈ itemsOf d did, x.product = y.product ∧ x.title = y.title ∧
        x.unit_price = y.unit_price)) := by
  obtain ⟨hwf2, hcarts, hitems, hqty, hsnap⟩ :=
    foldl_mergeItemInto_facts pid (itemsOf d did) d hwf
  refine ⟨hwf2, ?_, hitems, ?_, hsnap⟩
  · unfold mergeDupCart deactivateCart
    dsimp only
    rw [hcarts]
  · intro p
    rw [show qtyKey (mergeDupCart d pid did) pid p =
      qtyKey ((itemsOf d did).foldl (fun x it => mergeItemInto x pid it) d) pid p from rfl]
    rw [hqty p, qtyKey_eq_itemsOf d did p]

/-- The same facts for the whole duplicate-merging loop of
`_get_or_create_active_cart`. -/
theorem foldl_mergeDupCart_facts (pid : Nat) (ds : List Cart) :
    ∀ d : DB, ItemsWF d → (∀ dup ∈ ds, dup.id ≠ pid) →
    ItemsWF (ds.foldl (fun x dup => mergeDupCart x pid dup.id) d) ∧
    (ds.foldl (fun x dup => mergeDupCart x pid dup.id) d).carts =
      d.carts.map (fun c =>
        if c.id ∈ ds.map Cart.id then { c with is_active := false } else c) ∧
    (∀ cid, cid ≠ pid →
      itemsOf (ds.foldl (fun x dup => mergeDupCart x pid dup.id) d) cid = itemsOf d cid) ∧
    (∀ p, qtyKey (ds.foldl (fun x dup => mergeDupCart x pid dup.id) d) pid p =
      qtyKey d pid p + ((ds.map (fun c => qtyKey d c.id p)).sum)) ∧
    (∀ x ∈ itemsOf (ds.foldl (fun x dup => mergeDupCart x pid dup.id) d) pid,
      (∃ y ∈ itemsOf d pid, y.product = x.product ∧ y.title = x.title ∧
        y.unit_price = x.unit_price) ∨
      (∃ c0 ∈ ds, ∃ y ∈ itemsOf d c0.id, x.product = y.product ∧ x.title = y.title ∧
        x.unit_price = y.unit_price)) := by
  induction ds with
  | nil =>
      intro d hwf _
      refine ⟨hwf, ?_, fun _ _ => rfl, fun p => by simp,
        fun x hx => Or.inl ⟨x, hx, rfl, rfl, rfl⟩⟩
      have : ∀ c ∈ d.carts,
          (if c.id ∈ ([] : List Cart).map Cart.id then { c with is_active := false } else c)
            = c := by
        intro c _
        rw [if_neg (by simp)]
      rw [List.map_congr_left this, List.map_id']
      rfl
  | cons dup ds ih =>
      intro d hwf hne
      have hne1 : dup.id ≠ pid := hne dup (List.mem_cons_self _ _)
      have hner : ∀ c ∈ ds, c.id ≠ pid := fun c hc => hne c (List.mem_cons_of_mem _ hc)
      obtain ⟨mwf, mcarts, mitems, mqty, msnap⟩ := mergeDupCart_facts d pid dup.id hwf
      obtain ⟨ihwf, ihcarts, ihitems, ihqty, ihsnap⟩ := ih (mergeDupCart d pid dup.id) mwf hner
      refine ⟨ihwf, ?_, ?_, ?_, ?_⟩
      · rw [List.foldl_cons] at *
        rw [ihcarts, mcarts, List.map_map]
        apply List.map_congr_left
        intro c _
        simp only [Function.comp_apply, List.map_cons, List.mem_cons]
        by_cases hc : c.id = dup.id
        · by_cases hm : c.id ∈ ds.map Cart.id
          · simp [hc, hm]
          · simp [hc, hm]
        · by_cases hm : c.id ∈ ds.map Cart.id
          · simp [hc, hm]
          · simp [hc, hm]
      · intro cid hcid
        exact (ihitems cid hcid).trans (mitems cid hcid)
      · intro p
        rw [List.foldl_cons] at *
        rw [ihqty p, mqty p]
        have hsum : ∀ c ∈ ds, qtyKey (mergeDupCart d pid dup.id) c.id p = qtyKey d c.id p := by
          intro c hc
          rw [qtyKey_eq_itemsOf, qtyKey_eq_itemsOf, mitems c.id (hner c hc)]
        rw [List.map_congr_left hsum]
        simp only [List.map_cons, List.sum_cons]
        omega
      · intro x hx
        rcases ihsnap x hx with ⟨y, hy, hmatch⟩ | ⟨c0, hc0, y, hy, hmatch⟩
        · rcases msnap y hy with ⟨z, hz, hzm⟩ | ⟨w, hw, hwm⟩
          · exact Or.inl ⟨z, hz, hzm.1.trans hmatch.1, hzm.2.1.trans hmatch.2.1,
              hzm.2.2.trans hmatch.2.2⟩
          · refine Or.inr ⟨dup, List.mem_cons_self _ _, w, hw, ?_, ?_, ?_⟩
            · rw [← hmatch.1]
              exact hwm.1
            · rw [← hmatch.2.1]
              exact hwm.2.1
            · rw [← hmatch.2.2]
              exact hwm.2.2
        · have hitemseq := mitems c0.id (hner c0 hc0)
          rw [hitemseq] at hy
          exact Or.inr ⟨c0, List.mem_cons_of_mem _ hc0, y, hy, hmatch⟩

/-! ## Cart consolidation: run lemmas and the active-cart invariant -/

/-- With no active cart, the consolidation routine creates a fresh one. -/
theorem getOrCreate_empty_run {db : DB} {u : Nat} (h : activeCarts db u = []) :
    getOrCreateActiveCart db u =
      ({ db with carts := db.carts ++ [⟨db.nextId, u, true, db.now⟩],
                 nextId := db.nextId + 1 },
        ⟨db.nextId, u, true, db.now⟩) := by
  unfold getOrCreateActiveCart
  rw [h]
  rfl

/-- With at least one active cart, the routine merges the tail of the
sorted active set into its head. -/
theorem getOrCreate_cons_run {db : DB} {u : Nat} {P : Cart} {ds : List Cart}
    (hS : (activeCarts db u).insertionSort cartBefore = P :: ds) :
    getOrCreateActiveCart db u =
      (ds.foldl (fun x dup => mergeDupCart x P.id dup.id) db, P) := by
  unfold getOrCreateActiveCart
  rw [hS]

/-- Deactivating a set of cart pks restricts the active set to the
remaining pks. -/
theorem activeCarts_flip_many (db : DB) (ids : List Nat) (w : Nat) :
    (db.carts.map (fun c => if c.id ∈ ids then { c with is_active := false } else c)).filter
      (fun c => decide (c.user = w) && c.is_active) =
    (activeCarts db w).filter (fun c => !decide (c.id ∈ ids)) := by
  rw [List.filter_map]
  have h1 : db.carts.filter ((fun c => decide (c.user = w) && c.is_active) ∘
      (fun c => if c.id ∈ ids then { c with is_active := false } else c)) =
      db.carts.filter (fun c =>
        (!decide (c.id ∈ ids)) && (decide (c.user = w) && c.is_active)) := by
    apply List.filter_congr
    intro x _
    simp only [Function.comp_apply]
    by_cases hc : x.id ∈ ids
    · simp [hc]
    · simp [hc]
  rw [h1]
  have h2 : ∀ x ∈ db.carts.filter (fun c =>
      (!decide (c.id ∈ ids)) && (decide (c.user = w) && c.is_active)),
      (if x.id ∈ ids then { x with is_active := false } else x) = x := by
    intro x hx
    have := (List.mem_filter.mp hx).2
    simp only [Bool.and_eq_true, Bool.not_eq_true', decide_eq_false_iff_not] at this
    rw [if_neg this.1]
  rw [List.map_congr_left h2, List.map_id']
  unfold activeCarts
  rw [List.filter_filter]

/-- The consolidation routine keeps at most one active cart per user
when the store already satisfies the invariant. -/
theorem getOrCreate_preserves_inv (db : DB) (u : Nat)
    (hinv : ∀ v, (activeCarts db v).length ≤ 1) (w : Nat) :
    (activeCarts (getOrCreateActiveCart db u).1 w).length ≤ 1 := by
  rcases length_le_one_shape (hinv u) with h0 | ⟨c, hc⟩
  · rw [getOrCreate_empty_run h0]
    have heq : activeCarts ({ db with
        carts := db.carts ++ [⟨db.nextId, u, true, db.now⟩],
        nextId := db.nextId + 1 } : DB) w =
        activeCarts db w ++
          ([(⟨db.nextId, u, true, db.now⟩ : Cart)].filter
            (fun c => decide (c.user = w) && c.is_active)) := by
      unfold activeCarts
      dsimp only
      rw [List.filter_append]
    rw [heq]
    by_cases hw : w = u
    · subst hw
      rw [h0]
      simp
    · have hnil : [(⟨db.nextId, u, true, db.now⟩ : Cart)].filter
          (fun c => decide (c.user = w) && c.is_active) = [] := by
        simp [Ne.symm hw]
      rw [hnil, List.append_nil]
      exact hinv w
  · rw [getOrCreate_single hc]
    exact hinv w

theorem cart_add_preserves_inv (db : DB) (u pid qty : Nat)
    (hinv : ∀ v, (activeCarts db v).length ≤ 1) (w : Nat) :
    (activeCarts (cart_add db u pid qty).1 w).length ≤ 1 := by
  unfold cart_add
  rcases hp : db.products.find? (fun p => decide (p.id = pid) && p.is_available) with _ | prod
  · rw [hp]
    exact hinv w
  · rw [hp]
    dsimp only
    rcases hf : findCartItem (getOrCreateActiveCart db u).1
        (getOrCreateActiveCart db u).2.id pid with _ | item
    · dsimp only
      rw [activeCarts_congr (show (insertCartItem (getOrCreateActiveCart db u).1
        (getOrCreateActiveCart db u).2.id pid qty prod.title prod.price).carts =
        (getOrCreateActiveCart db u).1.carts from rfl) w]
      exact getOrCreate_preserves_inv db u hinv w
    · dsimp only
      rw [activeCarts_congr (show (bumpCartItemQty (getOrCreateActiveCart db u).1
        item.id qty).carts = (getOrCreateActiveCart db u).1.carts from rfl) w]
      exact getOrCreate_preserves_inv db u hinv w

theorem cart_item_update_carts (db : DB) (itemId qty : Nat) :
    (cart_item_update db itemId qty).1.carts = db.carts := by
  unfold cart_item_update
  rcases h : db.cartItems.find?
      (fun it => decide (it.id = itemId) && cartActive db it.cart) with _ | it
  · rw [h]
  · rw [h]

theorem cart_item_delete_carts (db : DB) (itemId : Nat) :
    (cart_item_delete db itemId).1.carts = db.carts := by
  unfold cart_item_delete
  rcases h : db.cartItems.find?
      (fun it => decide (it.id = itemId) && cartActive db it.cart) with _ | it
  · rw [h]
  · rw [h]

theorem cart_clear_carts (db : DB) (u : Nat) :
    (cart_clear db u).carts = db.carts := by
  unfold cart_clear
  rcases h : (activeCarts db u).head? with _ | cart
  · rfl
  · rfl

/-- The carts table of `checkoutDB`: the source cart deactivated, plus a
fresh active cart when no active cart is left. -/
theorem checkoutDB_carts_cases (db : DB) (u : Nat) (addr : String) (fee : Int) (cid : Nat) :
    (checkoutDB db u addr fee cid).carts =
      (if ((db.carts.map (fun c => if c.id = cid then { c with is_active := false } else c)).filter
          (fun c => decide (c.user = u) && c.is_active)).isEmpty then
        (db.carts.map (fun c => if c.id = cid then { c with is_active := false } else c)) ++
          [⟨db.nextId + 1 + (itemsOf db cid).length, u, true, db.now⟩]
      else
        db.carts.map (fun c => if c.id = cid then { c with is_active := false } else c)) := by
  unfold checkoutDB deactivateCart activeCarts
  dsimp only
  split <;> rfl

theorem checkout_preserves_inv (db : DB) (u : Nat) (addr : String) (fee : Int)
    (hinv : ∀ v, (activeCarts db v).length ≤ 1) (w : Nat) :
    (activeCarts (checkout_create_order db u addr fee).1 w).length ≤ 1 := by
  rcases hh : (activeCarts db u).head? with _ | cart
  · have hrun : (checkout_create_order db u addr fee).1 = db := by
      unfold checkout_create_order
      rw [hh]
    rw [hrun]
    exact hinv w
  · by_cases hlen : (itemsOf db cart.id).length = 0
    · have hrun : (checkout_create_order db u addr fee).1 = db := by
        unfold checkout_create_order
        rw [hh]
        dsimp only
        rw [if_pos hlen]
      rw [hrun]
      exact hinv w
    · rw [checkout_success addr fee hh hlen]
      have hA : activeCarts db u = [cart] := by
        rcases length_le_one_shape (hinv u) with h0 | ⟨c, hc⟩
        · rw [h0] at hh
          simp at hh
        · rw [hc] at hh
          simp only [List.head?_cons, Option.some.injEq] at hh
          rw [hc, hh]
      dsimp only
      unfold activeCarts
      rw [checkoutDB_carts_cases]
      have hbase : (db.carts.map
          (fun c => if c.id = cart.id then { c with is_active := false } else c)).filter
          (fun c => decide (c.user = w) && c.is_active) =
          (activeCarts db w).filter (fun c => !decide (c.id = cart.id)) :=
        activeCarts_deactivate db cart.id w
      split
      · rw [List.filter_append, hbase]
        by_cases hw : w = u
        · subst hw
          rw [hA]
          simp
        · have hnil : [(⟨db.nextId + 1 + (itemsOf db cart.id).length, u, true, db.now⟩ :
              Cart)].filter (fun c => decide (c.user = w) && c.is_active) = [] := by
            simp [Ne.symm hw]
          rw [hnil, List.append_nil]
          exact le_trans (List.length_filter_le _ _) (hinv w)
      · rw [hbase]
        exact le_trans (List.length_filter_le _ _) (hinv w)

/-- Invariant preservation across every modeled operation. -/
theorem applyOp_preserves_inv (db : DB) (op : Op)
    (hinv : ∀ v, (activeCarts db v).length ≤ 1) (w : Nat) :
    (activeCarts (applyOp db op) w).length ≤ 1 := by
  cases op with
  | cartGet u => exact getOrCreate_preserves_inv db u hinv w
  | cartAdd u pid qty => exact cart_add_preserves_inv db u pid qty hinv w
  | cartItemUpdate itemId qty =>
      rw [show applyOp db (.cartItemUpdate itemId qty) = (cart_item_update db itemId qty).1
        from rfl, activeCarts_congr (cart_item_update_carts db itemId qty) w]
      exact hinv w
  | cartItemDelete itemId =>
      rw [show applyOp db (.cartItemDelete itemId) = (cart_item_delete db itemId).1
        from rfl, activeCarts_congr (cart_item_delete_carts db itemId) w]
      exact hinv w
  | cartClear u =>
      rw [show applyOp db (.cartClear u) = cart_clear db u from rfl,
        activeCarts_congr (cart_clear_carts db u) w]
      exact hinv w
  | checkout u addr fee => exact checkout_preserves_inv db u addr fee hinv w
  | payConfirm oid m s r =>
      rw [show applyOp db (.payConfirm oid m s r) = (payment_confirm db oid m s r).1
        from rfl, activeCarts_congr (payment_confirm_carts db oid m s r) w]
      exact hinv w
  | verifyOtp u code =>
      rw [show applyOp db (.verifyOtp u code) = (verify_otp db u code).1 from rfl,
        activeCarts_congr (verify_otp_carts db u code) w]
      exact hinv w
  | upsertLoc u lat lon save near =>
      rw [show applyOp db (.upsertLoc u lat lon save near) =
        upsert_location db u lat lon save near from rfl,
        activeCarts_congr (upsert_location_carts db u lat lon save near) w]
      exact hinv w
  | productUpdate pid title price =>
      rw [show applyOp db (.productUpdate pid title price) =
        product_update db pid title price from rfl,
        activeCarts_congr (show (product_update db pid title price).carts = db.carts
          from rfl) w]
      exact hinv w

/-- Claim C4: every operation preserves the at-most-one-active-cart
invariant for every user; and the consolidation routine creates a fresh
active cart when none exists, while with at least one it returns the
most-recently-updated active cart as primary, merges every other active
cart into it (adding quantities per product and copying snapshot title
and unit price), and leaves it as the single active cart. -/
theorem active_cart_invariant_spec (db : DB) (u : Nat) :
    (∀ op : Op, (∀ v, (activeCarts db v).length ≤ 1) →
      ∀ v, (activeCarts (applyOp db op) v).length ≤ 1) ∧
    (activeCarts db u = [] →
      (getOrCreateActiveCart db u).2 = ⟨db.nextId, u, true, db.now⟩ ∧
      activeCarts (getOrCreateActiveCart db u).1 u = [⟨db.nextId, u, true, db.now⟩]) ∧
    (∀ P ds, (activeCarts db u).insertionSort cartBefore = P :: ds →
      (db.carts.map Cart.id).Nodup → ItemsWF db →
      (getOrCreateActiveCart db u).2 = P ∧
      P ∈ activeCarts db u ∧
      (∀ c ∈ activeCarts db u, cartBefore P c) ∧
      activeCarts (getOrCreateActiveCart db u).1 u = [P] ∧
      (∀ p, qtyKey (getOrCreateActiveCart db u).1 P.id p =
        ((activeCarts db u).map (fun c => qtyKey db c.id p)).sum) ∧
      (∀ x ∈ itemsOf (getOrCreateActiveCart db u).1 P.id,
        ∃ c0 ∈ activeCarts db u, ∃ y ∈ itemsOf db c0.id,
          y.product = x.product ∧ y.title = x.title ∧ y.unit_price = x.unit_price)) := by
  refine ⟨fun op hinv v => applyOp_preserves_inv db op hinv v, ?_, ?_⟩
  · intro h0
    rw [getOrCreate_empty_run h0]
    refine ⟨rfl, ?_⟩
    have heq : activeCarts ({ db with
        carts := db.carts ++ [⟨db.nextId, u, true, db.now⟩],
        nextId := db.nextId + 1 } : DB) u =
        activeCarts db u ++
          ([(⟨db.nextId, u, true, db.now⟩ : Cart)].filter
            (fun c => decide (c.user = u) && c.is_active)) := by
      unfold activeCarts
      dsimp only
      rw [List.filter_append]
    rw [heq, h0]
    simp
  · intro P ds hS hcnodup hwf
    have hrun := getOrCreate_cons_run hS
    have hperm : (P :: ds).Perm (activeCarts db u) := by
      rw [← hS]
      exact List.perm_insertionSort cartBefore _
    have hsorted : (P :: ds).Sorted cartBefore := by
      rw [← hS]
      exact List.sorted_insertionSort cartBefore _
    have hAsub : (activeCarts db u).Sublist db.carts := List.filter_sublist db.carts
    have hAnodup : ((activeCarts db u).map Cart.id).Nodup :=
      hcnodup.sublist (hAsub.map Cart.id)
    have hSnodup : ((P :: ds).map Cart.id).Nodup :=
      ((hperm.map Cart.id).nodup_iff).mpr hAnodup
    have hPnotin : P.id ∉ ds.map Cart.id := by
      rw [List.map_cons, List.nodup_cons] at hSnodup
      exact hSnodup.1
    have hdne : ∀ dup ∈ ds, dup.id ≠ P.id :=
      fun dup hdup hc => hPnotin (hc ▸ List.mem_map_of_mem Cart.id hdup)
    obtain ⟨fwf, fcarts, fitems, fqty, fsnap⟩ :=
      foldl_mergeDupCart_facts P.id ds db hwf hdne
    have hPmem : P ∈ activeCarts db u := hperm.mem_iff.mp (List.mem_cons_self P ds)
    refine ⟨by rw [hrun], hPmem, ?_, ?_, ?_, ?_⟩
    · intro c hc
      rcases List.mem_cons.mp (hperm.mem_iff.mpr hc) with rfl | hmem
      · exact Or.inr ⟨rfl, le_refl _⟩
      · exact (List.sorted_cons.mp hsorted).1 c hmem
    · rw [hrun]
      have heq : activeCarts (ds.foldl (fun x dup => mergeDupCart x P.id dup.id) db, P).1 u =
          (db.carts.map (fun c =>
            if c.id ∈ ds.map Cart.id then { c with is_active := false } else c)).filter
            (fun c => decide (c.user = u) && c.is_active) := by
        unfold activeCarts
        dsimp only
        rw [fcarts]
      rw [heq, activeCarts_flip_many db (ds.map Cart.id) u]
      have hfil : ((P :: ds).filter (fun c => !decide (c.id ∈ ds.map Cart.id))) = [P] := by
        rw [List.filter_cons]
        rw [if_pos (by simpa using hPnotin)]
        have : ds.filter (fun c => !decide (c.id ∈ ds.map Cart.id)) = [] := by
          rw [List.filter_eq_nil_iff]
          intro c hc
          simp [List.mem_map_of_mem Cart.id hc]
        rw [this]
      have hpermf : ((activeCarts db u).filter
          (fun c => !decide (c.id ∈ ds.map Cart.id))).Perm
          ((P :: ds).filter (fun c => !decide (c.id ∈ ds.map Cart.id))) :=
        (hperm.filter _).symm
      rw [hfil] at hpermf
      exact List.perm_singleton.mp hpermf
    · intro p
      rw [hrun]
      have heq : qtyKey (ds.foldl (fun x dup => mergeDupCart x P.id dup.id) db, P).1 P.id p =
          qtyKey (ds.foldl (fun x dup => mergeDupCart x P.id dup.id) db) P.id p := rfl
      rw [heq, fqty p]
      have hsum : ((P :: ds).map (fun c => qtyKey db c.id p)).sum =
          ((activeCarts db u).map (fun c => qtyKey db c.id p)).sum :=
        (hperm.map _).sum_eq
      rw [← hsum]
      simp only [List.map_cons, List.sum_cons]
    · intro x hx
      rw [hrun] at hx
      have hx2 : x ∈ itemsOf (ds.foldl (fun x dup => mergeDupCart x P.id dup.id) db) P.id := hx
      rcases fsnap x hx2 with ⟨y, hy, hm⟩ | ⟨c0, hc0, y, hy, hm⟩
      · exact ⟨P, hPmem, y, hy, hm⟩
      · exact ⟨c0, hperm.mem_iff.mp (List.mem_cons_of_mem _ hc0), y, hy,
          hm.1.symm, hm.2.1.symm, hm.2.2.symm⟩

/-- Concrete store with two active carts for user 1 sharing product 9
(quantities 2 and 1) and one product only in the duplicate cart. -/
def mergeSampleDB : DB :=
  ⟨[], [], [⟨9, 1, "Burger", 40, true⟩, ⟨8, 1, "Fries", 30, true⟩],
    [⟨1, 1, true, 5⟩, ⟨2, 1, true, 3⟩],
    [⟨3, 1, 9, 2, "Burger", 40⟩, ⟨4, 2, 9, 1, "Burger", 40⟩, ⟨5, 2, 8, 1, "Fries", 30⟩],
    [], [], [], [], [], [], 6, 0⟩

/-- Witness for C4 on `mergeSampleDB`: consolidation keeps the
most-recently-updated cart as the only active one with the per-product
quantities summed over both carts. -/
theorem active_cart_invariant_spec_witness :
    ((activeCarts mergeSampleDB 1).insertionSort cartBefore =
      [⟨1, 1, true, 5⟩, ⟨2, 1, true, 3⟩]) ∧
    activeCarts (getOrCreateActiveCart mergeSampleDB 1).1 1 = [⟨1, 1, true, 5⟩] ∧
    (∀ p, qtyKey (getOrCreateActiveCart mergeSampleDB 1).1 1 p =
      ((activeCarts mergeSampleDB 1).map (fun c => qtyKey mergeSampleDB c.id p)).sum) := by
  have h := (active_cart_invariant_spec mergeSampleDB 1).2.2 ⟨1, 1, true, 5⟩
    [⟨2, 1, true, 3⟩] (by decide) (by decide) ⟨by decide, by decide⟩
  exact ⟨by decide, h.2.2.2.1, h.2.2.2.2.1⟩

end FoodGo
